import Mathlib

/-!
Verification model of the janus-gateway whiteboard storage/replay engine.

The engine under study is the scene+page+per-page-keyframe variant of the
whiteboard recorder (the most complete variant in the repository, which the
design document declares canonical).  Its state is a directory of scenes
(a GHashTable keyed by scene index), each scene owning a fixed array of
lazily materialised pages, each page holding at most one key frame; four
append-only record logs (data, header, scene, page); a current (scene,page)
pointer; and an in-memory current-view cache of packages.

Modelling conventions:
 - Protobuf records are modelled by their decoded field values; the codec is
   an external collaborator, so encode/decode round-trips are taken as the
   identity on these values.  Draw commands are opaque and stand in as `Nat`.
 - The four log files are modelled as lists of decoded records.  Every byte
   offset the code ever stores is an `ftell` taken at end-of-file, i.e. a
   record boundary, so file positions are modelled as record counts; seeking
   to a stored offset and reading to EOF is `List.drop`.  (The byte-level
   framing loop itself, with its length prefix and corruption cap, is
   modelled separately below for the claims about it.)
 - C float fields (scale, move_x, move_y) are never used arithmetically by
   the engine beyond comparison against the literals 0 and 1, so they are
   modelled as integers.
 - Writes take an explicit `writeOk` flag: `false` models any failure of the
   encode-and-append step (packed size zero, allocation failure, short
   write).  A failed append leaves a truncated frame that readers treat as
   end of log, so the decoded-record view of the file is unchanged.
 - Wall-clock timestamps are passed as an explicit `now` argument.
-/

/-- Package type tags, mirroring the `KLDataPackageType` enum of the source
(whiteboard.h).  `None` is the illegal tag -1. -/
inductive KLPackageType where
  | None
  | DrawCommand
  | SwitchScenePage
  | CleanDraw
  | ScenePageData
  | KeyFrame
  | AddScene
  | SceneData
  | EnableUserDraw
  | DeleteScene
  | ModifyScene
  | SceneOrderChange
  | PageChange
deriving DecidableEq, Repr

/-- Opaque draw command payload (the engine never inspects commands). -/
abbrev PbCommand := Nat

/-- Decoded `Pb__KeyFrame` record: an index entry pointing into the data log.
`offset` is a record-boundary position of the data log (see module comment). -/
structure PbKeyFrame where
  scene : Int
  page : Int
  offset : Nat
  timestamp : Int
deriving DecidableEq, Repr

/-- Decoded `Pb__Page` record: a page transform / page-switch index record. -/
structure PbPage where
  scene : Int
  page : Int
  timestamp : Int
  angle : Int
  scale : Int
  move_x : Int
  move_y : Int
deriving DecidableEq, Repr

/-- Decoded `Pb__Scene` descriptor record. -/
structure PbScene where
  index : Int
  type : Int
  pagecount : Int
  resource : String
  resourceid : Option String
deriving DecidableEq, Repr

/-- Decoded `Pb__Package` envelope: one whiteboard event. -/
structure PbPackage where
  type : KLPackageType
  scene : Int
  page : Int
  timestamp : Int
  cmd : List PbCommand
  page_info : Option PbPage
  newscene : Option PbScene
deriving DecidableEq, Repr

/-- In-memory `janus_page`: one drawable surface with its transform and at
most one live key frame (the `key_frame` pointer of the C struct). -/
structure JanusPage where
  scene : Int
  page : Int
  angle : Int
  scale : Int
  move_x : Int
  move_y : Int
  key_frame : Option PbKeyFrame
deriving DecidableEq, Repr

/-- In-memory `janus_scene`: a resource with a fixed array of lazily
materialised pages (`NULL` slots are `none`).  `page_num` of the C struct is
the length of `pages`. -/
structure JanusScene where
  source_id : Option String
  source_url : String
  type : Int
  index : Int
  pages : List (Option JanusPage)
deriving DecidableEq, Repr

/-- In-memory `janus_whiteboard`: the scene directory (`scenes` hash table,
modelled as an association list with replace-on-insert), the current page,
the current-view cache (`packages` GPtrArray), and the decoded-record views
of the four append-only files. -/
structure Whiteboard where
  scenes : List (Int × JanusScene)
  cur_page : JanusPage
  packages : List PbPackage
  dataLog : List PbPackage
  headerLog : List PbKeyFrame
  sceneLog : List PbScene
  pageLog : List PbPage
deriving DecidableEq, Repr

/-- Result returned to the caller (`janus_whiteboard_result`).  The encoded
`command_buf` / `keyframe_buf` outputs are modelled by the package values
they encode; `none` is a NULL buffer. -/
structure WbResult where
  ret : Int
  keyframe : Option PbPackage
  command : Option PbPackage
  package_type : KLPackageType
deriving DecidableEq, Repr

/-- Result value every operation starts from (all fields empty, ret = -1). -/
def emptyResult : WbResult :=
  { ret := -1, keyframe := none, command := none, package_type := .None }

/-- GHashTable lookup (`g_hash_table_lookup` with `GINT_TO_POINTER` keys). -/
def lookupScene : List (Int × JanusScene) → Int → Option JanusScene
  | [], _ => none
  | (k, v) :: rest, i => if k = i then some v else lookupScene rest i

/-- GHashTable insert: replaces the value when the key is present. -/
def insertScene : List (Int × JanusScene) → Int → JanusScene → List (Int × JanusScene)
  | [], k, v => [(k, v)]
  | (k', v') :: rest, k, v =>
      if k' = k then (k, v) :: rest else (k', v') :: insertScene rest k v

/-- Source `janus_whiteboard_get_scene`. -/
def janus_whiteboard_get_scene (wb : Whiteboard) (scene_index : Int) : Option JanusScene :=
  lookupScene wb.scenes scene_index

/-- Default-transform page materialised on first touch (scale = 1, rest 0). -/
def defaultPage (scene page : Int) : JanusPage :=
  { scene := scene, page := page, angle := 0, scale := 1, move_x := 0, move_y := 0,
    key_frame := none }

/-- Source `janus_whiteboard_get_page`: returns the page for valid
coordinates, materialising a default page in the scene's page array on first
access.  The second component is the whiteboard after this materialisation
(the C function mutates `scene_info->pages[page]` in place). -/
def janus_whiteboard_get_page (wb : Whiteboard) (scene page : Int) :
    Option JanusPage × Whiteboard :=
  match lookupScene wb.scenes scene with
  | none => (none, wb)
  | some sc =>
    if 0 ≤ page ∧ page < (sc.pages.length : Int) then
      match sc.pages.getD page.toNat none with
      | some pg => (some pg, wb)
      | none =>
        let sc' := { sc with pages := sc.pages.set page.toNat (some (defaultPage scene page)) }
        (some (defaultPage scene page), { wb with scenes := insertScene wb.scenes scene sc' })
    else (none, wb)

/-- Store a page value back into its scene's page slot (the C code writes
through the `janus_page*` pointer obtained from `get_page`). -/
def setPageSlot (wb : Whiteboard) (scene page : Int) (pg : JanusPage) : Whiteboard :=
  match lookupScene wb.scenes scene with
  | none => wb
  | some sc =>
    let sc' := { sc with pages := sc.pages.set page.toNat (some pg) }
    { wb with scenes := insertScene wb.scenes scene sc' }

/-- Source `janus_whiteboard_set_page`: applies a `Pb__Page` transform to the
directory, creating the page if absent (a fresh page has no key frame; an
existing page keeps its key frame). -/
def janus_whiteboard_set_page (wb : Whiteboard) (page_info : PbPage) :
    Option JanusPage × Whiteboard :=
  match lookupScene wb.scenes page_info.scene with
  | none => (none, wb)
  | some sc =>
    if 0 ≤ page_info.page ∧ page_info.page < (sc.pages.length : Int) then
      let old := sc.pages.getD page_info.page.toNat none
      let pg : JanusPage :=
        { scene := page_info.scene, page := page_info.page, angle := page_info.angle,
          scale := page_info.scale, move_x := page_info.move_x, move_y := page_info.move_y,
          key_frame := match old with | some p => p.key_frame | none => none }
      let sc' := { sc with pages := sc.pages.set page_info.page.toNat (some pg) }
      (some pg, { wb with scenes := insertScene wb.scenes page_info.scene sc' })
    else (none, wb)

/-- Source `janus_whiteboard_package_check`: scene index within
[0, number of scenes), scene present, page within [0, page_num). -/
def janus_whiteboard_package_check (wb : Whiteboard) (package : PbPackage) : Bool :=
  let scene_num : Int := wb.scenes.length
  if package.scene < 0 ∨ scene_num ≤ package.scene then false
  else
    match lookupScene wb.scenes package.scene with
    | none => false
    | some sc => ¬(package.page < 0 ∨ (sc.pages.length : Int) ≤ package.page)

/-- Source `janus_whiteboard_have_keyframe_l`: the page slot is materialised
and holds a key frame.  (The C code indexes `pages[page]` without an upper
bound check; an out-of-range read is undefined behaviour there and is
modelled as an empty slot.) -/
def janus_whiteboard_have_keyframe_l (wb : Whiteboard) (scene page : Int) : Bool :=
  match lookupScene wb.scenes scene with
  | none => false
  | some sc =>
    if 0 ≤ page then
      match sc.pages.getD page.toNat none with
      | some pg => pg.key_frame.isSome
      | none => false
    else false

/-- Source `janus_whiteboard_add_pkt_to_packages_l`: the cache reduction
rule.  CleanDraw clears; KeyFrame clears and seeds; SwitchScenePage is kept
only as a placeholder in an empty cache; the ScenePageData query is never
cached; everything else is appended. -/
def janus_whiteboard_add_pkt_to_packages_l (packages : List PbPackage)
    (dst_pkg : PbPackage) : List PbPackage :=
  if dst_pkg.type = .CleanDraw then []
  else if dst_pkg.type = .KeyFrame then [dst_pkg]
  else if dst_pkg.type = .SwitchScenePage then
    if packages.length = 0 then [dst_pkg] else packages
  else if dst_pkg.type = .ScenePageData then packages
  else packages ++ [dst_pkg]

/-- Output of `janus_whiteboard_packed_data_l`: the synthesised command
package and, when the cache is seeded by a key frame, the separately packed
key frame package. -/
structure WbPacked where
  command : PbPackage
  keyframe : Option PbPackage
deriving DecidableEq, Repr

/-- Source `janus_whiteboard_packed_data_l`: packs the cache into a single
package.  Empty cache: an empty CleanDraw package (scene 0).  Otherwise a
DrawCommand package taking scene/page from the first cached package, whose
command list concatenates every cached package's commands in order and whose
page_info is the last non-null one; if the first cached package is a
KeyFrame package it is additionally packed as a separate keyframe output. -/
def janus_whiteboard_packed_data_l (packages : List PbPackage) : WbPacked :=
  match packages with
  | [] =>
    { command := { type := .CleanDraw, scene := 0, page := 0, timestamp := 0,
                   cmd := [], page_info := none, newscene := none },
      keyframe := none }
  | first :: _ =>
    { command := { type := .DrawCommand, scene := first.scene, page := first.page,
                   timestamp := 0,
                   cmd := (packages.map PbPackage.cmd).flatten,
                   page_info := packages.foldl
                     (fun acc q => match q.page_info with
                       | some pi => some pi
                       | none => acc) none,
                   newscene := none },
      keyframe := if first.type = .KeyFrame then some first else none }

/-- One step of the data-log scan loop of `janus_whiteboard_scene_page_data_l`:
records not matching the requested (scene, page) are skipped, matching ones
are fed through the cache reduction rule. -/
def scanStep (scene page : Int) (acc : List PbPackage) (pkg : PbPackage) :
    List PbPackage :=
  if pkg.scene = scene ∧ pkg.page = page then
    janus_whiteboard_add_pkt_to_packages_l acc pkg
  else acc

/-- Source `janus_whiteboard_scene_page_data_l`: seeks the data log to the
page's key-frame offset (0 if none) and reduces the matching records into
the given accumulator.  `none` models the early -1 return for an invalid
(scene, page); the returned whiteboard accounts for the lazy page
materialisation done by `get_page`. -/
def janus_whiteboard_scene_page_data_l (wb : Whiteboard) (scene page : Int)
    (packages : List PbPackage) : Option (List PbPackage × Whiteboard) :=
  match janus_whiteboard_get_page wb scene page with
  | (none, _) => none
  | (some page_data, wb') =>
    let offset : Nat := match page_data.key_frame with
      | some kf => kf.offset
      | none => 0
    some ((wb'.dataLog.drop offset).foldl (scanStep scene page) packages, wb')

/-- Source `janus_whiteboard_on_receive_keyframe_l`: builds a key frame at
the data log's current end-of-file offset with the package's coordinates and
timestamp, installs it in the page (replacing any previous one), then appends
it to the header log.  Returns -1 when the page is invalid or the header
write fails (the install itself is not rolled back on a failed write). -/
def janus_whiteboard_on_receive_keyframe_l (wb : Whiteboard) (package : PbPackage)
    (writeOk : Bool) : Int × Whiteboard :=
  match janus_whiteboard_get_page wb package.scene package.page with
  | (none, wb') => (-1, wb')
  | (some page_data, wb') =>
    let key_frame : PbKeyFrame :=
      { offset := wb'.dataLog.length, scene := package.scene, page := package.page,
        timestamp := package.timestamp }
    let wb2 := setPageSlot wb' package.scene package.page
      { page_data with key_frame := some key_frame }
    if writeOk then (0, { wb2 with headerLog := wb2.headerLog ++ [key_frame] })
    else (-1, wb2)

/-- Source `janus_whiteboard_on_receive_switch_scene_l`: appends a page-switch
index record to the page log, built from the package's page_info when present
and otherwise from the target page's current transform. -/
def janus_whiteboard_on_receive_switch_scene_l (wb : Whiteboard) (package : PbPackage)
    (writeOk : Bool) : Int × Whiteboard :=
  let scene_num : Int := wb.scenes.length
  if package.scene < 0 ∨ scene_num ≤ package.scene then (-1, wb)
  else
    match package.page_info with
    | some pi =>
      if writeOk then (0, { wb with pageLog := wb.pageLog ++ [pi] }) else (-1, wb)
    | none =>
      match janus_whiteboard_get_page wb package.scene package.page with
      | (none, wb') => (-1, wb')
      | (some target_page, wb') =>
        let nextPage : PbPage :=
          { scene := package.scene, page := package.page, timestamp := package.timestamp,
            angle := target_page.angle, scale := target_page.scale,
            move_x := target_page.move_x, move_y := target_page.move_y }
        if writeOk then (0, { wb' with pageLog := wb'.pageLog ++ [nextPage] })
        else (-1, wb')

/-- Source `janus_whiteboard_add_scene_l`: resolves the sentinel index -1 to
the current scene count, rejects an index above the count and an existing
scene with the same resource, then inserts into the directory and appends
the descriptor to the scene log.  The insert happens before the write: a
failed write returns -1 with the scene still inserted.  Returns the result
code, the descriptor after index resolution, and the new state. -/
def janus_whiteboard_add_scene_l (wb : Whiteboard) (newScene : PbScene)
    (writeOk : Bool) : Int × PbScene × Whiteboard :=
  let scene_num : Int := wb.scenes.length
  let ns := if newScene.index = -1 then { newScene with index := scene_num } else newScene
  let j_scene : JanusScene :=
    { source_id := newScene.resourceid, source_url := newScene.resource,
      type := newScene.type, index := ns.index,
      pages := List.replicate newScene.pagecount.toNat none }
  if scene_num < ns.index then (-1, ns, wb)
  else
    let duplicate : Bool :=
      match lookupScene wb.scenes ns.index with
      | some tmp => tmp.source_url = j_scene.source_url
      | none => false
    if duplicate then (-1, ns, wb)
    else
      let wb1 := { wb with scenes := insertScene wb.scenes ns.index j_scene }
      if writeOk then (1, ns, { wb1 with sceneLog := wb1.sceneLog ++ [ns] })
      else (-1, ns, wb1)

/-- Source `janus_whiteboard_add_scene` (public entry): validates
page_count > 0, runs `add_scene_l`, and on success echoes the stored
descriptor with the assigned index as the result code. -/
def janus_whiteboard_add_scene (wb : Whiteboard) (package_type : KLPackageType)
    (resource_id : Option String) (resource : String) (page_count : Int)
    (type index : Int) (now : Int) (writeOk : Bool) : WbResult × Whiteboard :=
  if page_count ≤ 0 then (emptyResult, wb)
  else
    let ns : PbScene :=
      { type := type, index := index, pagecount := page_count,
        resource := resource, resourceid := resource_id }
    let r := janus_whiteboard_add_scene_l wb ns writeOk
    if r.1 ≤ 0 then ({ emptyResult with ret := r.1 }, r.2.2)
    else
      let pkg : PbPackage :=
        { type := package_type, scene := 0, page := 0, timestamp := now,
          cmd := [], page_info := none, newscene := some r.2.1 }
      ({ ret := r.2.1.index, keyframe := none, command := some pkg,
         package_type := .AddScene }, r.2.2)

/-- Lines 1053-1110 of the source `janus_whiteboard_save_package`: the shared
trailer of every fall-through branch.  Key-frame phase (explicit for
CleanDraw/KeyFrame, on an empty cache for SwitchScenePage, implicit for any
other package whose page has no key frame yet), then the data-log append,
then the cache update when the package targets the current page. -/
def savePackageTrailer (wb : Whiteboard) (package : PbPackage) (writeOk : Bool) :
    WbResult × Whiteboard :=
  let step1 : Option Whiteboard :=
    if package.type = .KeyFrame ∨ package.type = .CleanDraw then
      if janus_whiteboard_package_check wb package then
        some (janus_whiteboard_on_receive_keyframe_l wb package writeOk).2
      else none
    else if package.type = .SwitchScenePage then
      some (if wb.packages.length = 0 then
              (janus_whiteboard_on_receive_keyframe_l wb package writeOk).2
            else wb)
    else if 0 ≤ package.page ∧ ¬janus_whiteboard_have_keyframe_l wb package.scene package.page then
      some (janus_whiteboard_on_receive_keyframe_l wb package writeOk).2
    else some wb
  match step1 with
  | none => (emptyResult, wb)
  | some wb1 =>
    let wb2 := if writeOk then { wb1 with dataLog := wb1.dataLog ++ [package] } else wb1
    let wb3 :=
      if package.scene = wb2.cur_page.scene ∧ package.page = wb2.cur_page.page then
        { wb2 with packages := janus_whiteboard_add_pkt_to_packages_l wb2.packages package }
      else wb2
    ({ emptyResult with ret := 0 }, wb3)

/-- Source `janus_whiteboard_save_package`: the dispatch core.  The input is
the decoded package (decoding is the external codec); `now` is the wall
clock.  Unsupported types are rejected up front; AddScene, SceneData and
ScenePageData return directly; SwitchScenePage, PageChange and CleanDraw do
their branch work and fall through to the shared trailer, as does
DrawCommand. -/
def janus_whiteboard_save_package (wb : Whiteboard) (pkg0 : PbPackage) (now : Int)
    (writeOk : Bool) : WbResult × Whiteboard :=
  if pkg0.type = .None ∨ pkg0.type = .KeyFrame ∨ pkg0.type = .EnableUserDraw ∨
     pkg0.type = .DeleteScene ∨ pkg0.type = .ModifyScene ∨
     pkg0.type = .SceneOrderChange then
    (emptyResult, wb)
  else
    let package : PbPackage := { pkg0 with timestamp := now }
    if package.type = .AddScene then
      match package.newscene with
      | none => (emptyResult, wb)
      | some ns =>
        let r := janus_whiteboard_add_scene_l wb ns writeOk
        ({ ret := r.1, keyframe := none,
           command := some ({ package with newscene := some r.2.1 }),
           package_type := .AddScene }, r.2.2)
    else if package.type = .SceneData then
      if 0 < wb.scenes.length then
        let out := { package with scene := wb.cur_page.scene, page := wb.cur_page.page }
        ({ ret := 1, keyframe := none, command := some out,
           package_type := .SceneData }, wb)
      else ({ emptyResult with package_type := .SceneData }, wb)
    else if package.type = .SwitchScenePage then
      if package.scene = wb.cur_page.scene ∧ package.page = wb.cur_page.page then
        ({ emptyResult with ret := 0 }, wb)
      else if ¬janus_whiteboard_package_check wb package then (emptyResult, wb)
      else
        let wbA := (janus_whiteboard_on_receive_switch_scene_l wb package writeOk).2
        let wbB := { wbA with packages := [] }
        let wbC :=
          match janus_whiteboard_scene_page_data_l wbB package.scene package.page [] with
          | some (acc, wb') => { wb' with packages := acc }
          | none => wbB
        let wbD :=
          match janus_whiteboard_get_page wbC package.scene package.page with
          | (some pd, wb') => { wb' with cur_page := pd }
          | (none, wb') => wb'
        savePackageTrailer wbD package writeOk
    else if package.type = .PageChange then
      if ¬janus_whiteboard_package_check wb package then (emptyResult, wb)
      else
        match package.page_info with
        | none => (emptyResult, wb)
        | some pi0 =>
          let pi := { pi0 with scene := package.scene, page := package.page }
          let package' := { package with page_info := some pi }
          let wbA := (janus_whiteboard_on_receive_switch_scene_l wb package' writeOk).2
          match janus_whiteboard_set_page wbA pi with
          | (some pinfo, wbB) =>
            let wbC :=
              if wbB.cur_page.scene = pinfo.scene ∧ wbB.cur_page.page = pinfo.page then
                { wbB with cur_page := pinfo }
              else wbB
            savePackageTrailer wbC package' writeOk
          | (none, wbB) => (emptyResult, wbB)
    else if package.type = .CleanDraw then
      if ¬janus_whiteboard_package_check wb package then (emptyResult, wb)
      else
        let wbA :=
          if wb.cur_page.scene = package.scene ∧ wb.cur_page.page = package.page then
            { wb with packages := [] }
          else wb
        savePackageTrailer wbA package writeOk
    else if package.type = .ScenePageData then
      let package1 :=
        if package.scene < 0 ∨ package.page < 0 then
          { package with scene := wb.cur_page.scene, page := wb.cur_page.page }
        else package
      if ¬janus_whiteboard_package_check wb package1 then (emptyResult, wb)
      else if package1.scene = wb.cur_page.scene ∧ package1.page = wb.cur_page.page then
        let packed := janus_whiteboard_packed_data_l wb.packages
        ({ ret := 1, keyframe := packed.keyframe, command := some packed.command,
           package_type := .None }, wb)
      else
        match janus_whiteboard_scene_page_data_l wb package1.scene package1.page [] with
        | some (acc, wb') =>
          let packed := janus_whiteboard_packed_data_l acc
          ({ ret := 1, keyframe := packed.keyframe, command := some packed.command,
             package_type := .None }, wb')
        | none =>
          let packed := janus_whiteboard_packed_data_l ([] : List PbPackage)
          ({ ret := 1, keyframe := packed.keyframe, command := some packed.command,
             package_type := .None }, wb)
    else
      savePackageTrailer wb package writeOk

/-- The page value a page-log record restores: the logged transform, keeping
the key frame already present in the slot (none while replaying, since key
frames are installed only afterwards from the header log). -/
def initPg (sc : JanusScene) (pi : PbPage) : JanusPage :=
  { scene := pi.scene, page := pi.page, angle := pi.angle,
    scale := pi.scale, move_x := pi.move_x, move_y := pi.move_y,
    key_frame := match sc.pages.getD pi.page.toNat none with
                 | some p => p.key_frame | none => none }

/-- One page-log replay step of `janus_whiteboard_init_scene_from_file_l`. -/
def janus_whiteboard_init_scene_step :
    Option (List (Int × JanusScene) × JanusPage) → PbPage →
    Option (List (Int × JanusScene) × JanusPage)
  | none, _ => none
  | some (m, _), pi =>
    match lookupScene m pi.scene with
    | none => none
    | some sc =>
      if 0 ≤ pi.page ∧ pi.page < (sc.pages.length : Int) then
        some (insertScene m pi.scene
          { sc with pages := sc.pages.set pi.page.toNat (some (initPg sc pi)) },
          initPg sc pi)
      else none

/-- Source `janus_whiteboard_init_scene_from_file_l`: replays the scene log
into the directory (note the C code does not restore the scene's `type`
field), then replays the page log, applying each record's transform to its
page and tracking the last one as the current page.  `none` models the -1
return (a page record naming an absent scene, or an out-of-range page index,
which in the C is an out-of-bounds array access). -/
def janus_whiteboard_init_scene_from_file_l (sceneLog : List PbScene)
    (pageLog : List PbPage) : Option (List (Int × JanusScene) × JanusPage) :=
  let scenes0 := sceneLog.foldl
    (fun m s => insertScene m s.index
      { source_id := s.resourceid, source_url := s.resource, type := 0,
        index := s.index, pages := List.replicate s.pagecount.toNat none })
    ([] : List (Int × JanusScene))
  let zeroPage : JanusPage :=
    { scene := 0, page := 0, angle := 0, scale := 0, move_x := 0, move_y := 0,
      key_frame := none }
  pageLog.foldl janus_whiteboard_init_scene_step (some (scenes0, zeroPage))

/-- One header-log replay step of `janus_whiteboard_parse_or_create_header_l`:
install the decoded key frame into the page named by the record's own
scene/page fields, overwriting any earlier one; skip records whose page
cannot be materialised. -/
def installKeyFrame (wb : Whiteboard) (kf : PbKeyFrame) : Whiteboard :=
  match janus_whiteboard_get_page wb kf.scene kf.page with
  | (none, wb') => wb'
  | (some pg, wb') => setPageSlot wb' kf.scene kf.page { pg with key_frame := some kf }

/-- Source `janus_whiteboard_parse_or_create_header_l`: replays the scene and
page logs, applies the default current page when it is untouched
(scale = 0 and coordinates (0,0)), then replays the header log installing
each key frame per `installKeyFrame`.  Returns the whiteboard before the
current-view cache is loaded. -/
def janus_whiteboard_parse_or_create_header_l (sceneLog : List PbScene)
    (pageLog : List PbPage) (headerLog : List PbKeyFrame)
    (dataLog : List PbPackage) : Option Whiteboard :=
  match janus_whiteboard_init_scene_from_file_l sceneLog pageLog with
  | none => none
  | some (scenes, cur0) =>
    let cur1 :=
      if cur0.scale = 0 ∧ cur0.scene = 0 ∧ cur0.page = 0 then
        { scene := 0, page := 0, angle := 0, scale := 1, move_x := 0, move_y := 0,
          key_frame := none }
      else cur0
    let wb0 : Whiteboard :=
      { scenes := scenes, cur_page := cur1, packages := [],
        dataLog := dataLog, headerLog := headerLog,
        sceneLog := sceneLog, pageLog := pageLog }
    some (headerLog.foldl installKeyFrame wb0)

/-- Source `janus_whiteboard_create`: open the four files, replay the index
logs, and load the current-view cache for the recovered current page via the
scan (a failing scan leaves the cache empty). -/
def janus_whiteboard_create (sceneLog : List PbScene) (pageLog : List PbPage)
    (headerLog : List PbKeyFrame) (dataLog : List PbPackage) : Option Whiteboard :=
  match janus_whiteboard_parse_or_create_header_l sceneLog pageLog headerLog dataLog with
  | none => none
  | some wb1 =>
    match janus_whiteboard_scene_page_data_l wb1 wb1.cur_page.scene wb1.cur_page.page [] with
    | some (acc, wb') => some { wb' with packages := acc }
    | none => some wb1

/-- Apply a list of (package, wall-clock) inputs through
`janus_whiteboard_save_package` with successful writes. -/
def applySaves (wb : Whiteboard) (steps : List (PbPackage × Int)) : Whiteboard :=
  steps.foldl (fun w x => (janus_whiteboard_save_package w x.1 x.2 true).2) wb

/-- The live key frame of a page, read without materialising the page. -/
def pageKF (wb : Whiteboard) (scene page : Int) : Option PbKeyFrame :=
  match lookupScene wb.scenes scene with
  | none => none
  | some sc =>
    match sc.pages.getD page.toNat none with
    | some pg => pg.key_frame
    | none => none

/-- Validity of a (scene, page) target exactly as `package_check` computes
it, as a function of the scene directory: scene index within
[0, scene count), scene present, page within [0, page_num). -/
def validScenes (m : List (Int × JanusScene)) (scene page : Int) : Bool :=
  if scene < 0 ∨ (m.length : Int) ≤ scene then false
  else
    match lookupScene m scene with
    | none => false
    | some sc => ¬(page < 0 ∨ (sc.pages.length : Int) ≤ page)

/-- Validity of a (scene, page) target in a whiteboard state. -/
def validSP (wb : Whiteboard) (scene page : Int) : Bool :=
  validScenes wb.scenes scene page

/-!  Byte-level model of the log framing reader.

`janus_whiteboard_read_packet_from_file` reads an 8-byte little-endian
length prefix and then the payload.  The file is modelled as the byte list
from the current position; the second component of each result is the
remaining tail after the call. -/

/-- The configured framing cap (`MAX_PACKET_CAPACITY` in whiteboard.h). -/
def MAX_PACKET_CAPACITY : Nat := 100000

/-- Little-endian value of a byte list (the in-memory `size_t`). -/
def le64 (bs : List Nat) : Nat := bs.foldr (fun b acc => acc * 256 + b) 0

/-- Outcome of one framed read: `noMore` is the -1 return with a NULL
buffer; `record len payload` is the 1 return, where `payload = none` is a
NULL buffer (the case where the declared length is 0 or at least the cap,
in which no payload bytes are consumed). -/
inductive ReadPacketResult where
  | noMore
  | record (len : Nat) (payload : Option (List Nat))
deriving DecidableEq, Repr

/-- Source `janus_whiteboard_read_packet_from_file_l`: read exactly `len`
bytes; -1 when the file runs out first (position then at end of file). -/
def janus_whiteboard_read_packet_from_file_l (len : Nat) (tail : List Nat) :
    Int × List Nat :=
  if len ≤ tail.length then (0, tail.drop len) else (-1, [])

/-- Source `janus_whiteboard_read_packet_from_file`: read the 8-byte length
prefix (failure is `noMore`); when the declared length is strictly between 0
and the cap, read the payload (`noMore` when short); otherwise return a
record with a NULL payload buffer and the file positioned after the
prefix. -/
def janus_whiteboard_read_packet_from_file (tail : List Nat) :
    ReadPacketResult × List Nat :=
  if tail.length < 8 then (.noMore, tail.drop 8)
  else
    let pkt_len := le64 (tail.take 8)
    let rest := tail.drop 8
    if 0 < pkt_len ∧ pkt_len < MAX_PACKET_CAPACITY then
      if (janus_whiteboard_read_packet_from_file_l pkt_len rest).1 = 0 then
        (.record pkt_len (some (rest.take pkt_len)), rest.drop pkt_len)
      else (.noMore, [])
    else (.record pkt_len none, rest)

/-! Basic lemmas about the association-list scene directory and page arrays. -/

theorem lookupScene_insertScene_self (m : List (Int × JanusScene)) (k : Int)
    (v : JanusScene) : lookupScene (insertScene m k v) k = some v := by
  induction m with
  | nil => simp [insertScene, lookupScene]
  | cons hd tl ih =>
    by_cases h : hd.1 = k
    · simp [insertScene, h, lookupScene]
    · simp only [insertScene]
      rw [if_neg h]
      simp [lookupScene, h, ih]

theorem lookupScene_insertScene_ne (m : List (Int × JanusScene)) (k k' : Int)
    (v : JanusScene) (h : k' ≠ k) :
    lookupScene (insertScene m k v) k' = lookupScene m k' := by
  induction m with
  | nil =>
    simp only [insertScene, lookupScene]
    rw [if_neg (fun hh => h hh.symm)]
  | cons hd tl ih =>
    by_cases hk : hd.1 = k
    · subst hk
      simp only [insertScene, if_pos rfl, lookupScene]
      rw [if_neg (fun hh => h hh.symm), if_neg (fun hh => h hh.symm)]
    · simp only [insertScene]
      rw [if_neg hk]
      simp only [lookupScene]
      by_cases hk' : hd.1 = k'
      · rw [if_pos hk', if_pos hk']
      · rw [if_neg hk', if_neg hk', ih]

theorem insertScene_insertScene_same (m : List (Int × JanusScene)) (k : Int)
    (v w : JanusScene) : insertScene (insertScene m k v) k w = insertScene m k w := by
  induction m with
  | nil => simp [insertScene]
  | cons hd tl ih =>
    by_cases h : hd.1 = k
    · simp [insertScene, h]
    · simp only [insertScene]
      rw [if_neg h]
      simp only [insertScene]
      rw [if_neg h, if_neg h, ih]

theorem length_insertScene_of_lookup (m : List (Int × JanusScene)) (k : Int)
    (v w : JanusScene) (h : lookupScene m k = some w) :
    (insertScene m k v).length = m.length := by
  induction m with
  | nil => simp [lookupScene] at h
  | cons hd tl ih =>
    by_cases hk : hd.1 = k
    · simp [insertScene, hk]
    · simp only [lookupScene] at h
      rw [if_neg hk] at h
      simp only [insertScene]
      rw [if_neg hk]
      simp [ih h]

theorem getD_set_self {α : Type} (l : List (Option α)) (i : Nat) (x : Option α)
    (h : i < l.length) : (l.set i x).getD i none = x := by
  induction l generalizing i with
  | nil => simp at h
  | cons hd tl ih =>
    cases i with
    | zero => simp [List.set, List.getD]
    | succ n =>
      simp only [List.set, List.getD_cons_succ]
      exact ih n (by simp at h; omega)

theorem getD_set_ne {α : Type} (l : List (Option α)) (i j : Nat) (x : Option α)
    (h : i ≠ j) : (l.set i x).getD j none = l.getD j none := by
  induction l generalizing i j with
  | nil => simp [List.set]
  | cons hd tl ih =>
    cases i with
    | zero =>
      cases j with
      | zero => exact absurd rfl h
      | succ n => simp [List.set]
    | succ n =>
      cases j with
      | zero => simp [List.set]
      | succ m =>
        simp only [List.set, List.getD_cons_succ]
        exact ih n m (fun hh => h (by simp [hh]))

theorem getD_replicate_none {α : Type} (n i : Nat) :
    (List.replicate n (none : Option α)).getD i none = none := by
  induction n generalizing i with
  | zero => simp [List.getD]
  | succ m ih =>
    cases i with
    | zero => simp [List.replicate]
    | succ j => simp only [List.replicate, List.getD_cons_succ]; exact ih j

/-! Views of the directory used throughout: the raw page slot at (scene, page)
and basic facts connecting it to `validSP`, `pageKF` and `have_keyframe_l`. -/

/-- The raw (possibly unmaterialised) page slot at (scene, page). -/
def pageSlot (wb : Whiteboard) (scene page : Int) : Option JanusPage :=
  match lookupScene wb.scenes scene with
  | none => none
  | some sc => sc.pages.getD page.toNat none

theorem pageKF_eq_slot (wb : Whiteboard) (s p : Int) :
    pageKF wb s p = (pageSlot wb s p).bind JanusPage.key_frame := by
  unfold pageKF pageSlot
  cases h : lookupScene wb.scenes s with
  | none => simp
  | some sc =>
    cases h2 : sc.pages.getD p.toNat none with
    | none => simp only [h2]; rfl
    | some pg => simp only [h2]; rfl

theorem have_keyframe_eq (wb : Whiteboard) (s p : Int) (hp : 0 ≤ p) :
    janus_whiteboard_have_keyframe_l wb s p = (pageKF wb s p).isSome := by
  unfold janus_whiteboard_have_keyframe_l pageKF
  cases h : lookupScene wb.scenes s with
  | none => simp
  | some sc =>
    cases h2 : sc.pages.getD p.toNat none with
    | none => simp only [h2, if_pos hp]; rfl
    | some pg => simp only [h2, if_pos hp]

/-! Unpacking validity, and the identification of `package_check` with it. -/

theorem validScenes_iff (m : List (Int × JanusScene)) (s p : Int) :
    validScenes m s p = true ↔
      0 ≤ s ∧ s < (m.length : Int) ∧
        ∃ sc, lookupScene m s = some sc ∧ 0 ≤ p ∧ p < (sc.pages.length : Int) := by
  unfold validScenes
  by_cases h1 : s < 0 ∨ (m.length : Int) ≤ s
  · rw [if_pos h1]
    constructor
    · intro h
      exact absurd h (by decide)
    · rintro ⟨hs0, hslt, -⟩
      exfalso
      rcases h1 with h | h <;> omega
  · rw [if_neg h1]
    push_neg at h1
    cases h2 : lookupScene m s with
    | none =>
      constructor
      · intro h
        exact Bool.noConfusion h
      · rintro ⟨-, -, sc, hsc, -⟩
        exact Option.noConfusion hsc
    | some sc =>
      simp only [decide_eq_true_eq]
      constructor
      · intro h3
        exact ⟨h1.1, h1.2, sc, rfl, by omega, by omega⟩
      · rintro ⟨-, -, sc', hsc', hp0, hplt⟩
        cases hsc'
        omega

theorem package_check_eq (wb : Whiteboard) (pkg : PbPackage) :
    janus_whiteboard_package_check wb pkg = validSP wb pkg.scene pkg.page := rfl

theorem package_check_timestamp (wb : Whiteboard) (pkg : PbPackage) (t : Int) :
    janus_whiteboard_package_check wb { pkg with timestamp := t } =
      janus_whiteboard_package_check wb pkg := rfl

/-! The key-frame installation transform on the scene directory, and its
interaction with lookups, validity and page slots. -/

/-- The page value stored by a key-frame install: the current slot value
(default transform if unmaterialised) with the new key frame. -/
def kfStored (sc : JanusScene) (s p : Int) (kf : PbKeyFrame) : JanusPage :=
  { (sc.pages.getD p.toNat none).getD (defaultPage s p) with key_frame := some kf }

/-- The scene value after a key-frame install into one of its pages. -/
def kfScene (sc : JanusScene) (s p : Int) (kf : PbKeyFrame) : JanusScene :=
  { sc with pages := sc.pages.set p.toNat (some (kfStored sc s p kf)) }

/-- Effect on the scene directory of `on_receive_keyframe_l` for a valid
target: the page slot (materialised if needed) gets the new key frame, the
rest of the page keeps its current transform. -/
def installKFScenes (m : List (Int × JanusScene)) (s p : Int) (kf : PbKeyFrame) :
    List (Int × JanusScene) :=
  match lookupScene m s with
  | none => m
  | some sc => insertScene m s (kfScene sc s p kf)

theorem installKFScenes_of_none (m : List (Int × JanusScene)) (s p : Int)
    (kf : PbKeyFrame) (h : lookupScene m s = none) :
    installKFScenes m s p kf = m := by
  unfold installKFScenes
  rw [h]

theorem length_installKFScenes (m : List (Int × JanusScene)) (s p : Int)
    (kf : PbKeyFrame) : (installKFScenes m s p kf).length = m.length := by
  unfold installKFScenes
  cases h : lookupScene m s with
  | none => rfl
  | some sc => exact length_insertScene_of_lookup m s _ sc h

theorem lookup_installKFScenes_self (m : List (Int × JanusScene)) (s p : Int)
    (kf : PbKeyFrame) (sc : JanusScene) (h : lookupScene m s = some sc) :
    lookupScene (installKFScenes m s p kf) s = some (kfScene sc s p kf) := by
  unfold installKFScenes
  rw [h]
  exact lookupScene_insertScene_self m s _

theorem lookup_installKFScenes_ne (m : List (Int × JanusScene)) (s p : Int)
    (kf : PbKeyFrame) (k : Int) (hk : k ≠ s) :
    lookupScene (installKFScenes m s p kf) k = lookupScene m k := by
  unfold installKFScenes
  cases h : lookupScene m s with
  | none => rfl
  | some sc => exact lookupScene_insertScene_ne m s k _ hk

theorem validScenes_installKFScenes (m : List (Int × JanusScene)) (s p : Int)
    (kf : PbKeyFrame) (s' p' : Int) :
    validScenes (installKFScenes m s p kf) s' p' = validScenes m s' p' := by
  unfold validScenes
  rw [length_installKFScenes]
  by_cases h1 : s' < 0 ∨ (m.length : Int) ≤ s'
  · rw [if_pos h1, if_pos h1]
  · rw [if_neg h1, if_neg h1]
    by_cases hk : s' = s
    · subst hk
      cases h : lookupScene m s' with
      | none => rw [installKFScenes_of_none m s' p kf h, h]
      | some sc =>
        rw [lookup_installKFScenes_self m s' p kf sc h]
        simp [kfScene]
    · rw [lookup_installKFScenes_ne m s p kf s' hk]

/-- Scenes-level view of `pageKF`. -/
def pageKFm (m : List (Int × JanusScene)) (s p : Int) : Option PbKeyFrame :=
  match lookupScene m s with
  | none => none
  | some sc =>
    match sc.pages.getD p.toNat none with
    | some pg => pg.key_frame
    | none => none

theorem pageKF_eq_pageKFm (wb : Whiteboard) (s p : Int) :
    pageKF wb s p = pageKFm wb.scenes s p := rfl

theorem pageKFm_install_self (m : List (Int × JanusScene)) (s p : Int)
    (kf : PbKeyFrame) (sc : JanusScene) (h : lookupScene m s = some sc)
    (hp : p.toNat < sc.pages.length) :
    pageKFm (installKFScenes m s p kf) s p = some kf := by
  unfold pageKFm
  rw [lookup_installKFScenes_self m s p kf sc h]
  simp only [kfScene]
  rw [getD_set_self _ _ _ hp]
  simp [kfStored]

theorem pageKFm_install_other (m : List (Int × JanusScene)) (s p : Int)
    (kf : PbKeyFrame) (s' p' : Int) (hne : s' ≠ s ∨ p'.toNat ≠ p.toNat) :
    pageKFm (installKFScenes m s p kf) s' p' = pageKFm m s' p' := by
  unfold pageKFm
  by_cases hs : s' = s
  · subst hs
    have hp : p'.toNat ≠ p.toNat := by
      rcases hne with h | h
      · exact absurd rfl h
      · exact h
    cases h : lookupScene m s' with
    | none =>
      rw [installKFScenes_of_none m s' p kf h, h]
    | some sc =>
      rw [lookup_installKFScenes_self m s' p kf sc h]
      simp only [kfScene]
      rw [getD_set_ne _ _ _ _ (fun hh => hp hh.symm)]
  · rw [lookup_installKFScenes_ne m s p kf s' hs]

/-! Closed forms of `get_page` and `on_receive_keyframe_l` for a valid
target. -/

/-- Scene value after lazily materialising one page slot. -/
def matScene (sc : JanusScene) (s p : Int) : JanusScene :=
  { sc with pages := sc.pages.set p.toNat (some (defaultPage s p)) }

theorem get_page_slot_some (wb : Whiteboard) (s p : Int) (sc : JanusScene)
    (pg : JanusPage) (h : lookupScene wb.scenes s = some sc) (hp0 : 0 ≤ p)
    (hplt : p < (sc.pages.length : Int)) (hslot : sc.pages.getD p.toNat none = some pg) :
    janus_whiteboard_get_page wb s p = (some pg, wb) := by
  unfold janus_whiteboard_get_page
  rw [h]
  simp only [if_pos (And.intro hp0 hplt), hslot]

theorem get_page_slot_none (wb : Whiteboard) (s p : Int) (sc : JanusScene)
    (h : lookupScene wb.scenes s = some sc) (hp0 : 0 ≤ p)
    (hplt : p < (sc.pages.length : Int)) (hslot : sc.pages.getD p.toNat none = none) :
    janus_whiteboard_get_page wb s p =
      (some (defaultPage s p),
       { wb with scenes := insertScene wb.scenes s (matScene sc s p) }) := by
  unfold janus_whiteboard_get_page
  rw [h]
  simp only [if_pos (And.intro hp0 hplt), hslot, matScene]

/-- The key frame built by `on_receive_keyframe_l`: the package's
coordinates and timestamp at the data log's end-of-file offset. -/
def mkKF (wb : Whiteboard) (pkg : PbPackage) : PbKeyFrame :=
  { offset := wb.dataLog.length, scene := pkg.scene, page := pkg.page,
    timestamp := pkg.timestamp }

theorem on_receive_keyframe_eq (wb : Whiteboard) (pkg : PbPackage)
    (hv : validSP wb pkg.scene pkg.page = true) :
    janus_whiteboard_on_receive_keyframe_l wb pkg true =
      (0, { wb with
              scenes := installKFScenes wb.scenes pkg.scene pkg.page (mkKF wb pkg),
              headerLog := wb.headerLog ++ [mkKF wb pkg] }) := by
  obtain ⟨hs0, hslt, sc, hsc, hp0, hplt⟩ := (validScenes_iff wb.scenes pkg.scene pkg.page).mp hv
  have hpn : pkg.page.toNat < sc.pages.length := by omega
  unfold janus_whiteboard_on_receive_keyframe_l
  cases hslot : sc.pages.getD pkg.page.toNat none with
  | some pg =>
    rw [get_page_slot_some wb pkg.scene pkg.page sc pg hsc hp0 hplt hslot]
    simp only [setPageSlot, mkKF]
    rw [hsc]
    unfold installKFScenes
    rw [hsc]
    simp only [kfScene, kfStored]
    rw [hslot]
    simp
  | none =>
    rw [get_page_slot_none wb pkg.scene pkg.page sc hsc hp0 hplt hslot]
    simp only [setPageSlot, mkKF]
    rw [lookupScene_insertScene_self wb.scenes pkg.scene (matScene sc pkg.scene pkg.page)]
    unfold installKFScenes
    rw [hsc]
    simp only [matScene, kfScene, kfStored]
    rw [hslot]
    simp [List.set_set, insertScene_insertScene_same, defaultPage]

/-! The cache reduction rule on specific package types. -/

theorem add_pkt_cleandraw (l : List PbPackage) (pkg : PbPackage)
    (h : pkg.type = .CleanDraw) :
    janus_whiteboard_add_pkt_to_packages_l l pkg = [] := by
  unfold janus_whiteboard_add_pkt_to_packages_l
  rw [if_pos h]

theorem add_pkt_draw (l : List PbPackage) (pkg : PbPackage)
    (h : pkg.type = .DrawCommand) :
    janus_whiteboard_add_pkt_to_packages_l l pkg = l ++ [pkg] := by
  unfold janus_whiteboard_add_pkt_to_packages_l
  simp [h]

/-- Net state change of `save_package` on the DrawCommand/CleanDraw path
with successful writes (the shared trailer, lines 1053-1110 of the source):
conditional key-frame install (explicit for CleanDraw, implicit when the
page has none), data-log append, cache update when the package targets the
current page. -/
def saveDC (wb : Whiteboard) (pkg : PbPackage) : Whiteboard :=
  let doInstall := pkg.type = KLPackageType.CleanDraw ∨
    (0 ≤ pkg.page ∧ janus_whiteboard_have_keyframe_l wb pkg.scene pkg.page = false)
  let wb1 := if doInstall then
      { wb with scenes := installKFScenes wb.scenes pkg.scene pkg.page (mkKF wb pkg),
                headerLog := wb.headerLog ++ [mkKF wb pkg] }
    else wb
  let wb2 := { wb1 with dataLog := wb1.dataLog ++ [pkg] }
  if pkg.scene = wb.cur_page.scene ∧ pkg.page = wb.cur_page.page then
    { wb2 with packages := janus_whiteboard_add_pkt_to_packages_l wb.packages pkg }
  else wb2

theorem save_dc_eq (wb : Whiteboard) (pkg : PbPackage) (now : Int)
    (hv : validSP wb pkg.scene pkg.page = true)
    (ht : pkg.type = .DrawCommand ∨ pkg.type = .CleanDraw) :
    janus_whiteboard_save_package wb pkg now true =
      ({ emptyResult with ret := 0 }, saveDC wb { pkg with timestamp := now }) := by
  obtain ⟨hs0, hslt, sc, hsc, hp0, hplt⟩ := (validScenes_iff wb.scenes pkg.scene pkg.page).mp hv
  rcases ht with ht | ht
  · -- DrawCommand: straight to the trailer
    unfold janus_whiteboard_save_package savePackageTrailer
    cases hkf : janus_whiteboard_have_keyframe_l wb pkg.scene pkg.page with
    | true =>
      simp only [ht, saveDC]
      simp [hkf, add_pkt_draw _ _ ht]
    | false =>
      have hr := on_receive_keyframe_eq wb { pkg with timestamp := now }
        (by exact hv)
      simp only [ht] at hr ⊢
      simp only [saveDC]
      simp [hkf, hp0, hr, add_pkt_draw _ _ ht]
  · -- CleanDraw: possible cache clear, then the trailer
    unfold janus_whiteboard_save_package savePackageTrailer
    have hchk : janus_whiteboard_package_check wb { pkg with timestamp := now } = true := hv
    have hclean : ({ pkg with timestamp := now } : PbPackage).type = KLPackageType.CleanDraw := ht
    by_cases hcur : wb.cur_page.scene = pkg.scene ∧ wb.cur_page.page = pkg.page
    · -- current page: the branch clears the cache before the trailer
      have hc1 : pkg.scene = wb.cur_page.scene := hcur.1.symm
      have hc2 : pkg.page = wb.cur_page.page := hcur.2.symm
      have hchk2 : janus_whiteboard_package_check
          { wb with packages := [] } { pkg with timestamp := now } = true := hv
      have hr := on_receive_keyframe_eq { wb with packages := ([] : List PbPackage) }
        { pkg with timestamp := now } (by exact hv)
      simp only [ht] at hchk hchk2 hr ⊢
      simp only [hc1, hc2] at hchk hchk2 hr ⊢
      simp only [saveDC]
      simp [hchk, hchk2, hr, ht, hc1, hc2, janus_whiteboard_add_pkt_to_packages_l, mkKF]
    · have hcur' : ¬(pkg.scene = wb.cur_page.scene ∧ pkg.page = wb.cur_page.page) :=
        fun h => hcur ⟨h.1.symm, h.2.symm⟩
      have hr := on_receive_keyframe_eq wb { pkg with timestamp := now } (by exact hv)
      simp only [ht] at hchk hr ⊢
      simp only [saveDC]
      simp [hchk, hcur, hcur', hr, add_pkt_cleandraw _ _ hclean, ht]

/-! Claim C10: unsupported package types are rejected up front. -/

/-- C10: for every input whose decoded type is None, KeyFrame,
EnableUserDraw, DeleteScene, ModifyScene, or SceneOrderChange,
`janus_whiteboard_save_package` returns ret = -1 with no output buffers and
leaves the whiteboard (all four logs, the scene directory, the current page
and the cache) unchanged. -/
theorem claim_C10_unsupported_types (wb : Whiteboard) (pkg : PbPackage) (now : Int)
    (writeOk : Bool)
    (h : pkg.type = .None ∨ pkg.type = .KeyFrame ∨ pkg.type = .EnableUserDraw ∨
         pkg.type = .DeleteScene ∨ pkg.type = .ModifyScene ∨
         pkg.type = .SceneOrderChange) :
    janus_whiteboard_save_package wb pkg now writeOk = (emptyResult, wb) ∧
      emptyResult.ret = -1 ∧ emptyResult.command = none ∧ emptyResult.keyframe = none := by
  refine ⟨?_, rfl, rfl, rfl⟩
  unfold janus_whiteboard_save_package
  rw [if_pos h]

theorem claim_C10_witness :
    janus_whiteboard_save_package
        { scenes := [], cur_page := defaultPage 0 0, packages := [], dataLog := [],
          headerLog := [], sceneLog := [], pageLog := [] }
        { type := .KeyFrame, scene := 0, page := 0, timestamp := 0, cmd := [],
          page_info := none, newscene := none } 7 true =
      (emptyResult,
       { scenes := [], cur_page := defaultPage 0 0, packages := [], dataLog := [],
         headerLog := [], sceneLog := [], pageLog := [] }) :=
  (claim_C10_unsupported_types _ _ 7 true (Or.inr (Or.inl rfl))).1

/-! Claim C6: the pack function of the current-view cache. -/

/-- C6: `janus_whiteboard_packed_data_l` on an empty cache produces a
CleanDraw-typed package with zero commands (and no keyframe output); on a
non-empty cache it produces a single DrawCommand-typed package whose scene
and page come from the first cached package and whose command list is the
in-order concatenation of every cached package's commands; when the first
cached package is KeyFrame-typed, that package is additionally returned as
a separately encoded keyframe output, not merged into the command output. -/
theorem claim_C6_packed_data (packages : List PbPackage) :
    (packages = [] →
      (janus_whiteboard_packed_data_l packages).command.type = .CleanDraw ∧
      (janus_whiteboard_packed_data_l packages).command.cmd = [] ∧
      (janus_whiteboard_packed_data_l packages).keyframe = none) ∧
    (∀ q qs, packages = q :: qs →
      (janus_whiteboard_packed_data_l packages).command.type = .DrawCommand ∧
      (janus_whiteboard_packed_data_l packages).command.scene = q.scene ∧
      (janus_whiteboard_packed_data_l packages).command.page = q.page ∧
      (janus_whiteboard_packed_data_l packages).command.cmd =
        (packages.map PbPackage.cmd).flatten ∧
      (janus_whiteboard_packed_data_l packages).keyframe =
        (if q.type = .KeyFrame then some q else none)) := by
  constructor
  · rintro rfl
    exact ⟨rfl, rfl, rfl⟩
  · rintro q qs rfl
    exact ⟨rfl, rfl, rfl, rfl, rfl⟩

theorem claim_C6_witness :
    (janus_whiteboard_packed_data_l
        [{ type := .DrawCommand, scene := 0, page := 1, timestamp := 3, cmd := [1, 2],
           page_info := none, newscene := none },
         { type := .DrawCommand, scene := 0, page := 1, timestamp := 4, cmd := [3, 4],
           page_info := none, newscene := none },
         { type := .DrawCommand, scene := 0, page := 1, timestamp := 5, cmd := [5, 6],
           page_info := none, newscene := none }]).command.cmd = [1, 2, 3, 4, 5, 6] ∧
    (janus_whiteboard_packed_data_l ([] : List PbPackage)).command.type = .CleanDraw := by
  constructor
  · exact ((claim_C6_packed_data _).2 _ _ rfl).2.2.2.1.trans (by decide)
  · exact ((claim_C6_packed_data ([] : List PbPackage)).1 rfl).1

/-! Claim C9: the framing reader's corruption guard (corrected). -/

/-- C9 counterexample: a frame whose declared length (100001) exceeds
`MAX_PACKET_CAPACITY` does not make the reader report "no more records":
it returns 1 (a record) with a NULL payload buffer. -/
theorem claim_C9_counterexample :
    le64 ([161, 134, 1, 0, 0, 0, 0, 0].take 8) = 100001 ∧
    MAX_PACKET_CAPACITY < 100001 ∧
    (janus_whiteboard_read_packet_from_file [161, 134, 1, 0, 0, 0, 0, 0]).1 ≠
      ReadPacketResult.noMore ∧
    (janus_whiteboard_read_packet_from_file [161, 134, 1, 0, 0, 0, 0, 0]).1 =
      ReadPacketResult.record 100001 none := by
  refine ⟨by decide, by decide, by decide, by decide⟩

/-- C9 as amended: a failed length-prefix read (fewer than 8 bytes left)
or a short payload read makes `janus_whiteboard_read_packet_from_file`
report no-more-records (-1); a declared length of zero or at least
`MAX_PACKET_CAPACITY` instead yields a successful return with a NULL
payload buffer and only the prefix consumed. -/
theorem claim_C9_amended (tail : List Nat) :
    (tail.length < 8 →
      (janus_whiteboard_read_packet_from_file tail).1 = ReadPacketResult.noMore) ∧
    (8 ≤ tail.length → 0 < le64 (tail.take 8) →
      le64 (tail.take 8) < MAX_PACKET_CAPACITY →
      tail.length - 8 < le64 (tail.take 8) →
      (janus_whiteboard_read_packet_from_file tail).1 = ReadPacketResult.noMore) ∧
    (8 ≤ tail.length → MAX_PACKET_CAPACITY ≤ le64 (tail.take 8) →
      (janus_whiteboard_read_packet_from_file tail).1 =
        ReadPacketResult.record (le64 (tail.take 8)) none) ∧
    (8 ≤ tail.length → le64 (tail.take 8) = 0 →
      (janus_whiteboard_read_packet_from_file tail).1 =
        ReadPacketResult.record 0 none) := by
  refine ⟨?_, ?_, ?_, ?_⟩
  · intro h
    unfold janus_whiteboard_read_packet_from_file
    rw [if_pos h]
  · intro h8 hpos hcap hshort
    have hrl : janus_whiteboard_read_packet_from_file_l (le64 (tail.take 8))
        (tail.drop 8) = (-1, []) := by
      unfold janus_whiteboard_read_packet_from_file_l
      rw [if_neg (by simp only [List.length_drop]; omega)]
    unfold janus_whiteboard_read_packet_from_file
    rw [if_neg (by omega), if_pos (And.intro hpos hcap), hrl]
    rw [if_neg (by decide)]
  · intro h8 hcap
    unfold janus_whiteboard_read_packet_from_file
    rw [if_neg (by omega), if_neg (by omega)]
  · intro h8 hz
    unfold janus_whiteboard_read_packet_from_file
    rw [if_neg (by omega)]
    rw [if_neg (by omega), hz]

theorem claim_C9_amended_witness :
    (janus_whiteboard_read_packet_from_file [1, 2, 3]).1 = ReadPacketResult.noMore ∧
    (janus_whiteboard_read_packet_from_file [3, 0, 0, 0, 0, 0, 0, 0, 7]).1 =
      ReadPacketResult.noMore ∧
    (janus_whiteboard_read_packet_from_file [160, 134, 1, 0, 0, 0, 0, 0]).1 =
      ReadPacketResult.record (le64 ([160, 134, 1, 0, 0, 0, 0, 0].take 8)) none ∧
    (janus_whiteboard_read_packet_from_file [0, 0, 0, 0, 0, 0, 0, 0]).1 =
      ReadPacketResult.record 0 none := by
  refine ⟨(claim_C9_amended [1, 2, 3]).1 (by decide),
    (claim_C9_amended [3, 0, 0, 0, 0, 0, 0, 0, 7]).2.1 (by decide) (by decide) (by decide)
      (by decide),
    (claim_C9_amended [160, 134, 1, 0, 0, 0, 0, 0]).2.2.1 (by decide) (by decide),
    (claim_C9_amended [0, 0, 0, 0, 0, 0, 0, 0]).2.2.2 (by decide) (by decide)⟩

/-! Concrete fixtures shared by counterexamples and witnesses: a whiteboard
with one scene (index 0, resource "slide1.png", two pages), empty logs,
current page (0,0). -/

def sceneFix : PbScene :=
  { index := 0, type := 1, pagecount := 2, resource := "slide1.png", resourceid := none }

def wbFix : Whiteboard :=
  { scenes := [(0, { source_id := none, source_url := "slide1.png", type := 0,
                     index := 0, pages := [some (defaultPage 0 0), none] })],
    cur_page := defaultPage 0 0, packages := [], dataLog := [], headerLog := [],
    sceneLog := [sceneFix], pageLog := [] }

/-- The fixture is exactly the state `janus_whiteboard_create` produces from
a scene log holding `sceneFix` and three empty logs (one AddScene, nothing
else, then close and reopen). -/
theorem wbFix_eq_create : janus_whiteboard_create [sceneFix] [] [] [] = some wbFix := by
  decide

def drawFix : PbPackage :=
  { type := .DrawCommand, scene := 0, page := 0, timestamp := 0, cmd := [7],
    page_info := none, newscene := none }

def kfPkgFix : PbPackage :=
  { type := .KeyFrame, scene := 0, page := 0, timestamp := 0, cmd := [],
    page_info := none, newscene := none }

def cleanFix : PbPackage :=
  { type := .CleanDraw, scene := 0, page := 0, timestamp := 0, cmd := [],
    page_info := none, newscene := none }

/-! Claim C3 (corrected): KeyFrame-typed packages never reach the key-frame
installer through `save_package` — they are rejected up front. -/

/-- C3 counterexample: sending two KeyFrame packages for (0,0) via
`save_package` leaves no live key frame at all (each call is rejected with
ret = -1 and no state change), contradicting "exactly one live KeyFrame
whose offset is the EOF offset at the second package". -/
theorem claim_C3_counterexample :
    (janus_whiteboard_save_package wbFix kfPkgFix 5 true).1.ret = -1 ∧
    (janus_whiteboard_save_package wbFix kfPkgFix 5 true).2 = wbFix ∧
    pageKF (applySaves wbFix [(kfPkgFix, 5), (kfPkgFix, 6)]) 0 0 = none := by
  refine ⟨by decide, by decide, by decide⟩

/-! Field-wise observations of the Draw/CleanDraw step. -/

theorem saveDC_fields (wb : Whiteboard) (pkg : PbPackage) :
    (saveDC wb pkg).cur_page = wb.cur_page ∧
    (saveDC wb pkg).sceneLog = wb.sceneLog ∧
    (saveDC wb pkg).pageLog = wb.pageLog ∧
    (saveDC wb pkg).dataLog = wb.dataLog ++ [pkg] ∧
    (saveDC wb pkg).scenes = (if pkg.type = KLPackageType.CleanDraw ∨
        (0 ≤ pkg.page ∧ janus_whiteboard_have_keyframe_l wb pkg.scene pkg.page = false)
      then installKFScenes wb.scenes pkg.scene pkg.page (mkKF wb pkg) else wb.scenes) ∧
    (saveDC wb pkg).headerLog = wb.headerLog ++ (if pkg.type = KLPackageType.CleanDraw ∨
        (0 ≤ pkg.page ∧ janus_whiteboard_have_keyframe_l wb pkg.scene pkg.page = false)
      then [mkKF wb pkg] else []) ∧
    (saveDC wb pkg).packages = (if pkg.scene = wb.cur_page.scene ∧ pkg.page = wb.cur_page.page
      then janus_whiteboard_add_pkt_to_packages_l wb.packages pkg else wb.packages) := by
  unfold saveDC
  by_cases h1 : pkg.type = KLPackageType.CleanDraw ∨
      (0 ≤ pkg.page ∧ janus_whiteboard_have_keyframe_l wb pkg.scene pkg.page = false) <;>
    by_cases h2 : pkg.scene = wb.cur_page.scene ∧ pkg.page = wb.cur_page.page
  · simp only [if_pos h1, if_pos h2]
    simp
  · simp only [if_pos h1, if_neg h2]
    simp
  · simp only [if_neg h1, if_pos h2]
    simp
  · simp only [if_neg h1, if_neg h2]
    simp

theorem validScenes_saveDC (wb : Whiteboard) (pkg : PbPackage) (s' p' : Int) :
    validScenes (saveDC wb pkg).scenes s' p' = validScenes wb.scenes s' p' := by
  rw [(saveDC_fields wb pkg).2.2.2.2.1]
  by_cases h1 : pkg.type = KLPackageType.CleanDraw ∨
      (0 ≤ pkg.page ∧ janus_whiteboard_have_keyframe_l wb pkg.scene pkg.page = false)
  · rw [if_pos h1, validScenes_installKFScenes]
  · rw [if_neg h1]

/-! Claim C3 as amended: `save_package` rejects KeyFrame-typed packages, but
CleanDraw packages are treated as standard key frames; two CleanDraw
packages for the same valid page leave exactly one live key frame, whose
offset is the data log's end-of-file offset at the time of the second
package, the first installed key frame having been replaced. -/

/-- C3 (amended): two CleanDraw packages — the key-frame path `save_package`
actually accepts — for the same valid (scene, page) leave exactly one live
key frame whose offset is the data-log EOF offset at the second package,
and both key-frame records are appended to the header log. -/
theorem claim_C3_amended (wb : Whiteboard) (c1 c2 : PbPackage) (t1 t2 s p : Int)
    (h1 : c1.type = .CleanDraw) (h2 : c2.type = .CleanDraw)
    (hs1 : c1.scene = s) (hp1 : c1.page = p) (hs2 : c2.scene = s) (hp2 : c2.page = p)
    (hv : validSP wb s p = true) :
    pageKF (applySaves wb [(c1, t1), (c2, t2)]) s p =
      some { scene := s, page := p, offset := wb.dataLog.length + 1, timestamp := t2 } ∧
    (applySaves wb [(c1, t1), (c2, t2)]).headerLog = wb.headerLog ++
      [{ scene := s, page := p, offset := wb.dataLog.length, timestamp := t1 },
       { scene := s, page := p, offset := wb.dataLog.length + 1, timestamp := t2 }] := by
  have hv1 : validSP wb c1.scene c1.page = true := by rw [hs1, hp1]; exact hv
  have happ : applySaves wb [(c1, t1), (c2, t2)] =
      (janus_whiteboard_save_package
        (janus_whiteboard_save_package wb c1 t1 true).2 c2 t2 true).2 := rfl
  have r1 := save_dc_eq wb c1 t1 hv1 (Or.inr h1)
  set wb1 := saveDC wb { c1 with timestamp := t1 } with hwb1
  have hv2 : validSP wb1 c2.scene c2.page = true := by
    show validScenes wb1.scenes c2.scene c2.page = true
    rw [hs2, hp2, hwb1, validScenes_saveDC]
    exact hv
  have r2 := save_dc_eq wb1 c2 t2 hv2 (Or.inr h2)
  rw [happ, r1]
  simp only []
  rw [r2]
  simp only []
  have f1 := saveDC_fields wb { c1 with timestamp := t1 }
  have f2 := saveDC_fields wb1 { c2 with timestamp := t2 }
  have hinst1 : ({ c1 with timestamp := t1 } : PbPackage).type = KLPackageType.CleanDraw ∨
      (0 ≤ ({ c1 with timestamp := t1 } : PbPackage).page ∧
        janus_whiteboard_have_keyframe_l wb ({ c1 with timestamp := t1} : PbPackage).scene
          ({ c1 with timestamp := t1 } : PbPackage).page = false) := Or.inl h1
  have hinst2 : ({ c2 with timestamp := t2 } : PbPackage).type = KLPackageType.CleanDraw ∨
      (0 ≤ ({ c2 with timestamp := t2 } : PbPackage).page ∧
        janus_whiteboard_have_keyframe_l wb1 ({ c2 with timestamp := t2} : PbPackage).scene
          ({ c2 with timestamp := t2 } : PbPackage).page = false) := Or.inl h2
  have hlen1 : wb1.dataLog.length = wb.dataLog.length + 1 := by
    rw [hwb1, (saveDC_fields wb _).2.2.2.1]
    simp
  obtain ⟨-, -, sc1, hsc1, hp0, hplt⟩ := (validScenes_iff wb1.scenes s p).mp
    (by rw [hs2, hp2] at hv2; exact hv2)
  constructor
  · rw [pageKF_eq_pageKFm, f2.2.2.2.2.1, if_pos hinst2]
    simp only [hs2, hp2]
    rw [pageKFm_install_self wb1.scenes s p _ sc1 hsc1 (by omega)]
    simp [mkKF, hs2, hp2, hlen1]
  · rw [f2.2.2.2.2.2.1, if_pos hinst2, f1.2.2.2.2.2.1, if_pos hinst1]
    simp [mkKF, hs1, hp1, hs2, hp2, hlen1]

theorem claim_C3_amended_witness :
    pageKF (applySaves wbFix [(cleanFix, 5), (cleanFix, 6)]) 0 0 =
      some { scene := 0, page := 0, offset := 1, timestamp := 6 } := by
  have := (claim_C3_amended wbFix cleanFix cleanFix 5 6 0 0 rfl rfl rfl rfl rfl rfl
    (by decide)).1
  simpa using this

/-! Claim C8 (corrected): a failed disk write does not abort the operation
with a clean in-memory state. -/

/-- C8 counterexample: on a failed data-log write, `save_package` for a
DrawCommand on the current page still returns 0 (not a negative code) and
still mutates the in-memory cache; on a failed scene-log write,
`add_scene` returns -1 but the scene stays inserted in the in-memory map. -/
theorem claim_C8_counterexample :
    (janus_whiteboard_save_package wbFix drawFix 5 false).1.ret = 0 ∧
    (janus_whiteboard_save_package wbFix drawFix 5 false).2.packages =
      [{ drawFix with timestamp := 5 }] ∧
    (janus_whiteboard_add_scene wbFix .AddScene none "other.png" 3 1 1 5 false).1.ret = -1 ∧
    lookupScene
        (janus_whiteboard_add_scene wbFix .AddScene none "other.png" 3 1 1 5 false).2.scenes
        1 =
      some { source_id := none, source_url := "other.png", type := 1, index := 1,
             pages := [none, none, none] } := by
  refine ⟨by decide, by decide, by decide, by decide⟩

/-- The in-memory scene object `add_scene_l` builds from a descriptor. -/
def addSceneJ (ns0 : PbScene) (idx : Int) : JanusScene :=
  { source_id := ns0.resourceid, source_url := ns0.resource, type := ns0.type,
    index := idx, pages := List.replicate ns0.pagecount.toNat none }

/-- The descriptor after sentinel-index resolution. -/
def resolveNS (wb : Whiteboard) (ns0 : PbScene) : PbScene :=
  if ns0.index = -1 then { ns0 with index := (wb.scenes.length : Int) } else ns0

theorem add_scene_l_accept (wb : Whiteboard) (ns0 : PbScene) (w : Bool)
    (hle : (resolveNS wb ns0).index ≤ (wb.scenes.length : Int))
    (hnodup : ∀ t, lookupScene wb.scenes (resolveNS wb ns0).index = some t →
      t.source_url ≠ ns0.resource) :
    janus_whiteboard_add_scene_l wb ns0 w =
      ((if w then 1 else -1), resolveNS wb ns0,
       (if w then
          { wb with
              scenes := insertScene wb.scenes (resolveNS wb ns0).index
                (addSceneJ ns0 (resolveNS wb ns0).index),
              sceneLog := wb.sceneLog ++ [resolveNS wb ns0] }
        else
          { wb with
              scenes := insertScene wb.scenes (resolveNS wb ns0).index
                (addSceneJ ns0 (resolveNS wb ns0).index) })) := by
  unfold janus_whiteboard_add_scene_l resolveNS addSceneJ
  unfold resolveNS at hle hnodup
  rw [if_neg (by omega)]
  have hdup : (match lookupScene wb.scenes
      (if ns0.index = -1 then { ns0 with index := (wb.scenes.length : Int) } else ns0).index with
      | some tmp => decide (tmp.source_url = ns0.resource)
      | none => false) = false := by
    cases hl : lookupScene wb.scenes
        (if ns0.index = -1 then { ns0 with index := (wb.scenes.length : Int) } else ns0).index with
    | none => rfl
    | some t => simp [hnodup t hl]
  rw [hdup]
  cases w with
  | true => simp
  | false => simp

theorem add_scene_l_reject_index (wb : Whiteboard) (ns0 : PbScene) (w : Bool)
    (hgt : (wb.scenes.length : Int) < (resolveNS wb ns0).index) :
    janus_whiteboard_add_scene_l wb ns0 w = (-1, resolveNS wb ns0, wb) := by
  unfold janus_whiteboard_add_scene_l resolveNS
  unfold resolveNS at hgt
  rw [if_pos hgt]

theorem add_scene_l_reject_dup (wb : Whiteboard) (ns0 : PbScene) (w : Bool)
    (t : JanusScene) (hle : (resolveNS wb ns0).index ≤ (wb.scenes.length : Int))
    (hl : lookupScene wb.scenes (resolveNS wb ns0).index = some t)
    (hres : t.source_url = ns0.resource) :
    janus_whiteboard_add_scene_l wb ns0 w = (-1, resolveNS wb ns0, wb) := by
  unfold janus_whiteboard_add_scene_l resolveNS
  unfold resolveNS at hle hl
  rw [if_neg (by omega)]
  rw [hl]
  simp [hres]

/-- C8 as amended: when the append fails, `save_package` merely logs the
error — it returns 0 and still applies the cache update — and a failed
scene-log write in `add_scene` returns -1 with the scene already inserted
in the in-memory directory; in-memory state is not rolled back. -/
theorem claim_C8_amended (wb : Whiteboard) (pkg : PbPackage) (now : Int) :
    (pkg.type = .DrawCommand →
      janus_whiteboard_have_keyframe_l wb pkg.scene pkg.page = true →
      pkg.scene = wb.cur_page.scene → pkg.page = wb.cur_page.page →
      (janus_whiteboard_save_package wb pkg now false).1.ret = 0 ∧
      (janus_whiteboard_save_package wb pkg now false).2.packages =
        wb.packages ++ [{ pkg with timestamp := now }] ∧
      (janus_whiteboard_save_package wb pkg now false).2.dataLog = wb.dataLog) ∧
    (∀ rid res pc ty, 0 < pc →
      (∀ t, lookupScene wb.scenes (wb.scenes.length : Int) = some t →
        t.source_url ≠ res) →
      (janus_whiteboard_add_scene wb .AddScene rid res pc ty (-1) now false).1.ret = -1 ∧
      lookupScene
          (janus_whiteboard_add_scene wb .AddScene rid res pc ty (-1) now false).2.scenes
          (wb.scenes.length : Int) =
        some { source_id := rid, source_url := res, type := ty,
               index := (wb.scenes.length : Int),
               pages := List.replicate pc.toNat none }) := by
  constructor
  · intro ht hkf hc1 hc2
    unfold janus_whiteboard_save_package savePackageTrailer
    simp only [ht]
    simp [hkf, hc1.symm, hc2.symm, ht]
    exact add_pkt_draw _ _ rfl
  · intro rid res pc ty hpc hnodup
    have hres : resolveNS wb (PbScene.mk (-1) ty pc res rid) =
        PbScene.mk (wb.scenes.length : Int) ty pc res rid := by
      unfold resolveNS
      simp
    have hacc := add_scene_l_accept wb (PbScene.mk (-1) ty pc res rid)
      false (by rw [hres]) (by rw [hres]; exact fun t hl => hnodup t hl)
    have hpc' : ¬pc ≤ 0 := by omega
    unfold janus_whiteboard_add_scene
    simp only [hacc, hres, if_neg hpc']
    simp [addSceneJ, lookupScene_insertScene_self]

/-- Fixture with a key frame already installed on page (0,0). -/
def wbFixKF : Whiteboard :=
  { wbFix with scenes :=
      [(0, { source_id := none, source_url := "slide1.png", type := 0, index := 0,
             pages := [some { defaultPage 0 0 with
                              key_frame := some ⟨0, 0, 0, 3⟩ }, none] })] }

theorem claim_C8_amended_witness :
    ((janus_whiteboard_save_package wbFixKF drawFix 5 false).1.ret = 0 ∧
     (janus_whiteboard_save_package wbFixKF drawFix 5 false).2.packages =
       wbFixKF.packages ++ [{ drawFix with timestamp := 5 }] ∧
     (janus_whiteboard_save_package wbFixKF drawFix 5 false).2.dataLog =
       wbFixKF.dataLog) ∧
    ((janus_whiteboard_add_scene wbFixKF .AddScene none "other.png" 3 1 (-1) 5
        false).1.ret = -1 ∧
     lookupScene (janus_whiteboard_add_scene wbFixKF .AddScene none "other.png" 3 1 (-1) 5
        false).2.scenes (wbFixKF.scenes.length : Int) =
       some { source_id := none, source_url := "other.png", type := 1,
              index := (wbFixKF.scenes.length : Int),
              pages := List.replicate (3 : Int).toNat none }) := by
  constructor
  · exact (claim_C8_amended wbFixKF drawFix 5).1 rfl (by decide) rfl rfl
  · exact (claim_C8_amended wbFixKF drawFix 5).2 none "other.png" 3 1 (by decide)
      (by decide)

/-! Claim C7: AddScene validation and index assignment. -/

/-- C7: `janus_whiteboard_add_scene` (with a successful write) rejects
page_count ≤ 0 without touching any state; with the sentinel index -1 it
assigns the next sequential index (the current scene count), inserts the
scene there and appends it to the scene log; it rejects an index strictly
greater than the current scene count, and a request whose index already
holds a scene with the same resource, in both cases leaving the scene
directory and the scene log unchanged. -/
theorem claim_C7_add_scene (wb : Whiteboard) (rid : Option String) (res : String)
    (pc ty idx now : Int) :
    (pc ≤ 0 →
      janus_whiteboard_add_scene wb .AddScene rid res pc ty idx now true =
        (emptyResult, wb)) ∧
    (0 < pc → idx = -1 →
      (∀ t, lookupScene wb.scenes (wb.scenes.length : Int) = some t →
        t.source_url ≠ res) →
      (janus_whiteboard_add_scene wb .AddScene rid res pc ty idx now true).1.ret =
        (wb.scenes.length : Int) ∧
      lookupScene
          (janus_whiteboard_add_scene wb .AddScene rid res pc ty idx now true).2.scenes
          (wb.scenes.length : Int) =
        some { source_id := rid, source_url := res, type := ty,
               index := (wb.scenes.length : Int),
               pages := List.replicate pc.toNat none } ∧
      (janus_whiteboard_add_scene wb .AddScene rid res pc ty idx now true).2.sceneLog =
        wb.sceneLog ++ [PbScene.mk (wb.scenes.length : Int) ty pc res rid]) ∧
    (0 < pc → (wb.scenes.length : Int) < idx →
      janus_whiteboard_add_scene wb .AddScene rid res pc ty idx now true =
        ({ emptyResult with ret := -1 }, wb)) ∧
    (∀ t, 0 < pc → idx ≠ -1 → idx ≤ (wb.scenes.length : Int) →
      lookupScene wb.scenes idx = some t → t.source_url = res →
      janus_whiteboard_add_scene wb .AddScene rid res pc ty idx now true =
        ({ emptyResult with ret := -1 }, wb)) := by
  refine ⟨?_, ?_, ?_, ?_⟩
  · intro hpc
    unfold janus_whiteboard_add_scene
    rw [if_pos hpc]
  · intro hpc hidx hnodup
    subst hidx
    have hres : resolveNS wb (PbScene.mk (-1) ty pc res rid) =
        PbScene.mk (wb.scenes.length : Int) ty pc res rid := by
      unfold resolveNS
      simp
    have hacc := add_scene_l_accept wb (PbScene.mk (-1) ty pc res rid)
      true (by rw [hres]) (by rw [hres]; exact fun t hl => hnodup t hl)
    have hpc' : ¬pc ≤ 0 := by omega
    unfold janus_whiteboard_add_scene
    simp only [hacc, hres, if_neg hpc']
    have hlen0 : ¬((1 : Int) ≤ 0) := by omega
    simp [addSceneJ, lookupScene_insertScene_self]
  · intro hpc hgt
    have hrej := add_scene_l_reject_index wb (PbScene.mk idx ty pc res rid) true
      (by unfold resolveNS; rw [if_neg (by simp; omega)]; exact hgt)
    have hpc' : ¬pc ≤ 0 := by omega
    unfold janus_whiteboard_add_scene
    simp only [hrej, if_neg hpc']
    simp
  · intro t hpc hidx hle hl hres
    have hrns : resolveNS wb (PbScene.mk idx ty pc res rid) =
        PbScene.mk idx ty pc res rid := by
      unfold resolveNS
      rw [if_neg (by simp [hidx])]
    have hrej := add_scene_l_reject_dup wb (PbScene.mk idx ty pc res rid) true t
      (by rw [hrns]; exact hle) (by rw [hrns]; exact hl) hres
    have hpc' : ¬pc ≤ 0 := by omega
    unfold janus_whiteboard_add_scene
    simp only [hrej, if_neg hpc']
    simp

theorem claim_C7_witness :
    janus_whiteboard_add_scene wbFix .AddScene none "r" 0 1 (-1) 5 true =
      (emptyResult, wbFix) ∧
    (janus_whiteboard_add_scene wbFix .AddScene none "r" 2 1 (-1) 5 true).1.ret = 1 ∧
    janus_whiteboard_add_scene wbFix .AddScene none "r" 2 1 3 5 true =
      ({ emptyResult with ret := -1 }, wbFix) ∧
    janus_whiteboard_add_scene wbFix .AddScene none "slide1.png" 2 1 0 5 true =
      ({ emptyResult with ret := -1 }, wbFix) := by
  refine ⟨?_, ?_, ?_, ?_⟩
  · exact (claim_C7_add_scene wbFix none "r" 0 1 (-1) 5).1 (by decide)
  · have h := ((claim_C7_add_scene wbFix none "r" 2 1 (-1) 5).2.1 (by decide) rfl
      (by decide)).1
    simpa using h
  · exact (claim_C7_add_scene wbFix none "r" 2 1 3 5).2.2.1 (by decide) (by decide)
  · exact (claim_C7_add_scene wbFix none "slide1.png" 2 1 0 5).2.2.2
      { source_id := none, source_url := "slide1.png", type := 0, index := 0,
        pages := [some (defaultPage 0 0), none] }
      (by decide) (by decide) (by decide) (by decide) (by decide)

/-! Generic preservation lemmas for replacing one scene by a variant with
the same page count and the same per-slot key frames. -/

theorem pageKFm_eq_bind (m : List (Int × JanusScene)) (s p : Int) :
    pageKFm m s p = (match lookupScene m s with
      | none => none
      | some sc => sc.pages.getD p.toNat none).bind JanusPage.key_frame := by
  unfold pageKFm
  cases h : lookupScene m s with
  | none => simp
  | some sc =>
    cases h2 : sc.pages.getD p.toNat none with
    | none => simp only [h2]; rfl
    | some pg => simp only [h2]; rfl

theorem validScenes_insert_pages (m : List (Int × JanusScene)) (s : Int)
    (sc sc' : JanusScene) (hsc : lookupScene m s = some sc)
    (hlen : sc'.pages.length = sc.pages.length) (s' p' : Int) :
    validScenes (insertScene m s sc') s' p' = validScenes m s' p' := by
  unfold validScenes
  rw [length_insertScene_of_lookup m s sc' sc hsc]
  by_cases h1 : s' < 0 ∨ (m.length : Int) ≤ s'
  · rw [if_pos h1, if_pos h1]
  · rw [if_neg h1, if_neg h1]
    by_cases hk : s' = s
    · subst hk
      rw [lookupScene_insertScene_self, hsc]
      simp [hlen]
    · rw [lookupScene_insertScene_ne m s s' sc' hk]

theorem pageKFm_insert_pages (m : List (Int × JanusScene)) (s : Int)
    (sc sc' : JanusScene) (hsc : lookupScene m s = some sc)
    (hkf : ∀ i : Nat, (sc'.pages.getD i none).bind JanusPage.key_frame =
      (sc.pages.getD i none).bind JanusPage.key_frame) (s' p' : Int) :
    pageKFm (insertScene m s sc') s' p' = pageKFm m s' p' := by
  rw [pageKFm_eq_bind, pageKFm_eq_bind]
  by_cases hk : s' = s
  · subst hk
    rw [lookupScene_insertScene_self, hsc]
    exact hkf p'.toNat
  · rw [lookupScene_insertScene_ne m s s' sc' hk]

/-! Closed forms of the page-switch record append and `set_page`. -/

theorem switch_scene_pi_eq (wb : Whiteboard) (pkg : PbPackage) (pi : PbPage)
    (hpi : pkg.page_info = some pi) (hs0 : 0 ≤ pkg.scene)
    (hslt : pkg.scene < (wb.scenes.length : Int)) :
    janus_whiteboard_on_receive_switch_scene_l wb pkg true =
      (0, { wb with pageLog := wb.pageLog ++ [pi] }) := by
  unfold janus_whiteboard_on_receive_switch_scene_l
  rw [if_neg (by omega), hpi]
  simp

/-- The page value `set_page` stores: the record's transform over the
existing key frame (none when the slot was unmaterialised). -/
def setPageStored (sc : JanusScene) (pi : PbPage) : JanusPage :=
  { scene := pi.scene, page := pi.page, angle := pi.angle, scale := pi.scale,
    move_x := pi.move_x, move_y := pi.move_y,
    key_frame := match sc.pages.getD pi.page.toNat none with
                 | some p => p.key_frame
                 | none => none }

/-- The scene value after `set_page` updates one of its pages. -/
def setPageScene (sc : JanusScene) (pi : PbPage) : JanusScene :=
  { sc with pages := sc.pages.set pi.page.toNat (some (setPageStored sc pi)) }

theorem set_page_eq (wb : Whiteboard) (pi : PbPage) (sc : JanusScene)
    (hsc : lookupScene wb.scenes pi.scene = some sc) (hp0 : 0 ≤ pi.page)
    (hplt : pi.page < (sc.pages.length : Int)) :
    janus_whiteboard_set_page wb pi =
      (some (setPageStored sc pi),
       { wb with scenes := insertScene wb.scenes pi.scene (setPageScene sc pi) }) := by
  unfold janus_whiteboard_set_page setPageScene setPageStored
  rw [hsc]
  simp only [if_pos (And.intro hp0 hplt)]

theorem validScenes_setPageScene (wb : Whiteboard) (pi : PbPage) (sc : JanusScene)
    (hsc : lookupScene wb.scenes pi.scene = some sc) (s' p' : Int) :
    validScenes (insertScene wb.scenes pi.scene (setPageScene sc pi)) s' p' =
      validScenes wb.scenes s' p' :=
  validScenes_insert_pages wb.scenes pi.scene sc (setPageScene sc pi) hsc
    (by simp [setPageScene]) s' p'

theorem pageKFm_setPageScene (wb : Whiteboard) (pi : PbPage) (sc : JanusScene)
    (hsc : lookupScene wb.scenes pi.scene = some sc)
    (hb : pi.page.toNat < sc.pages.length) (s' p' : Int) :
    pageKFm (insertScene wb.scenes pi.scene (setPageScene sc pi)) s' p' =
      pageKFm wb.scenes s' p' := by
  refine pageKFm_insert_pages wb.scenes pi.scene sc (setPageScene sc pi) hsc ?_ s' p'
  intro i
  by_cases hi : i = pi.page.toNat
  · subst hi
    have hset : (setPageScene sc pi).pages.getD pi.page.toNat none =
        some (setPageStored sc pi) := by
      unfold setPageScene
      exact getD_set_self _ _ _ hb
    rw [hset]
    cases h2 : sc.pages.getD pi.page.toNat none with
    | none => unfold setPageStored; simp only [h2]; rfl
    | some pg => unfold setPageStored; simp only [h2]; rfl
  · have hset : (setPageScene sc pi).pages.getD i none = sc.pages.getD i none := by
      unfold setPageScene
      exact getD_set_ne _ _ _ _ (fun hh => hi hh.symm)
    rw [hset]

/-- The shared trailer on any package type outside KeyFrame / CleanDraw /
SwitchScenePage, for a valid target: implicit key frame when the page has
none, data append, cache update — i.e. exactly `saveDC`. -/
theorem trailer_generic_eq (wb : Whiteboard) (pkg : PbPackage)
    (hnt : pkg.type ≠ .KeyFrame) (hnc : pkg.type ≠ .CleanDraw)
    (hns : pkg.type ≠ .SwitchScenePage)
    (hv : validSP wb pkg.scene pkg.page = true) :
    savePackageTrailer wb pkg true = ({ emptyResult with ret := 0 }, saveDC wb pkg) := by
  obtain ⟨-, -, sc, hsc, hp0, hplt⟩ := (validScenes_iff wb.scenes pkg.scene pkg.page).mp hv
  unfold savePackageTrailer
  cases hkf : janus_whiteboard_have_keyframe_l wb pkg.scene pkg.page with
  | true =>
    simp only [saveDC]
    simp [hnt, hnc, hns, hkf]
  | false =>
    have hr := on_receive_keyframe_eq wb pkg hv
    simp only [saveDC]
    simp [hnt, hnc, hns, hkf, hp0, hr]

/-- Net state change of `save_package` on a valid PageChange package (the
package below already carries its final timestamp): page-switch record
appended to the page log, `set_page` applied, current page refreshed when
it is the target, then the shared trailer (`saveDC`). -/
def savePC (wb : Whiteboard) (pkg : PbPackage) (pi0 : PbPage) : Whiteboard :=
  let pi : PbPage := { pi0 with scene := pkg.scene, page := pkg.page }
  let pkg' : PbPackage := { pkg with page_info := some pi }
  let wbA : Whiteboard := { wb with pageLog := wb.pageLog ++ [pi] }
  let r := janus_whiteboard_set_page wbA pi
  let wbC : Whiteboard := match r.1 with
    | some pinfo =>
      if r.2.cur_page.scene = pinfo.scene ∧ r.2.cur_page.page = pinfo.page then
        { r.2 with cur_page := pinfo }
      else r.2
    | none => r.2
  saveDC wbC pkg'

theorem save_pagechange_eq (wb : Whiteboard) (pkg : PbPackage) (now : Int)
    (pi0 : PbPage) (ht : pkg.type = .PageChange) (hpi : pkg.page_info = some pi0)
    (hv : validSP wb pkg.scene pkg.page = true) :
    janus_whiteboard_save_package wb pkg now true =
      ({ emptyResult with ret := 0 }, savePC wb { pkg with timestamp := now } pi0) := by
  obtain ⟨hs0, hslt, sc, hsc, hp0, hplt⟩ := (validScenes_iff wb.scenes pkg.scene pkg.page).mp hv
  have hchk : janus_whiteboard_package_check wb { pkg with timestamp := now } = true := hv
  have hsw := switch_scene_pi_eq wb
    (PbPackage.mk KLPackageType.PageChange pkg.scene pkg.page now pkg.cmd
      (some (PbPage.mk pkg.scene pkg.page pi0.timestamp pi0.angle pi0.scale
        pi0.move_x pi0.move_y)) pkg.newscene)
    (PbPage.mk pkg.scene pkg.page pi0.timestamp pi0.angle pi0.scale pi0.move_x pi0.move_y)
    rfl hs0 hslt
  have hsp := set_page_eq
    { wb with pageLog := wb.pageLog ++
        [PbPage.mk pkg.scene pkg.page pi0.timestamp pi0.angle pi0.scale pi0.move_x pi0.move_y] }
    (PbPage.mk pkg.scene pkg.page pi0.timestamp pi0.angle pi0.scale pi0.move_x pi0.move_y)
    sc hsc hp0 hplt
  have hvB : validScenes (insertScene wb.scenes
      (PbPage.mk pkg.scene pkg.page pi0.timestamp pi0.angle pi0.scale pi0.move_x
        pi0.move_y).scene
      (setPageScene sc (PbPage.mk pkg.scene pkg.page pi0.timestamp pi0.angle pi0.scale
        pi0.move_x pi0.move_y))) pkg.scene pkg.page = true := by
    rw [validScenes_setPageScene wb
      (PbPage.mk pkg.scene pkg.page pi0.timestamp pi0.angle pi0.scale pi0.move_x pi0.move_y)
      sc hsc]
    exact hv
  unfold janus_whiteboard_save_package
  simp only [ht]
  simp only [hchk, hpi]
  simp only [hsw, hsp]
  have htr1 := trailer_generic_eq
    { wb with
        pageLog := wb.pageLog ++
          [PbPage.mk pkg.scene pkg.page pi0.timestamp pi0.angle pi0.scale pi0.move_x
            pi0.move_y],
        scenes := insertScene wb.scenes pkg.scene
          (setPageScene sc (PbPage.mk pkg.scene pkg.page pi0.timestamp pi0.angle pi0.scale
            pi0.move_x pi0.move_y)),
        cur_page := setPageStored sc (PbPage.mk pkg.scene pkg.page pi0.timestamp pi0.angle
          pi0.scale pi0.move_x pi0.move_y) }
    (PbPackage.mk KLPackageType.PageChange pkg.scene pkg.page now pkg.cmd
      (some (PbPage.mk pkg.scene pkg.page pi0.timestamp pi0.angle pi0.scale
        pi0.move_x pi0.move_y)) pkg.newscene)
    (by simp) (by simp) (by simp) hvB
  have htr2 := trailer_generic_eq
    { wb with
        pageLog := wb.pageLog ++
          [PbPage.mk pkg.scene pkg.page pi0.timestamp pi0.angle pi0.scale pi0.move_x
            pi0.move_y],
        scenes := insertScene wb.scenes pkg.scene
          (setPageScene sc (PbPage.mk pkg.scene pkg.page pi0.timestamp pi0.angle pi0.scale
            pi0.move_x pi0.move_y)) }
    (PbPackage.mk KLPackageType.PageChange pkg.scene pkg.page now pkg.cmd
      (some (PbPage.mk pkg.scene pkg.page pi0.timestamp pi0.angle pi0.scale
        pi0.move_x pi0.move_y)) pkg.newscene)
    (by simp) (by simp) (by simp) hvB
  simp only [savePC, hsp]
  simp
  by_cases hcur : wb.cur_page.scene = (setPageStored sc (PbPage.mk pkg.scene pkg.page
      pi0.timestamp pi0.angle pi0.scale pi0.move_x pi0.move_y)).scene ∧
      wb.cur_page.page = (setPageStored sc (PbPage.mk pkg.scene pkg.page pi0.timestamp
      pi0.angle pi0.scale pi0.move_x pi0.move_y)).page
  all_goals have hchk2 : janus_whiteboard_package_check wb (PbPackage.mk KLPackageType.PageChange pkg.scene pkg.page now pkg.cmd (some pi0) pkg.newscene) = true := hv
  · simp only [hchk2]
    rw [if_neg (show ¬((true : Bool) = false) by simp)]
    simp only [if_pos hcur]
    exact htr1
  · simp only [hchk2]
    rw [if_neg (show ¬((true : Bool) = false) by simp)]
    simp only [if_neg hcur]
    exact htr2

/-! Claim C4: the implicit key-frame bootstrap. -/

/-- C4 (amended): when `save_package` accepts the first mutating package
(DrawCommand, or PageChange carrying page info) for a *valid* (scene, page)
with no live key frame, it returns 0, appends a key frame pointing at the
data log's current end-of-file offset to the header log, appends the
package to the data log, and the page's live key frame afterwards is
exactly that bootstrap key frame. -/
theorem claim_C4_amended (wb : Whiteboard) (pkg : PbPackage) (now : Int)
    (hv : validSP wb pkg.scene pkg.page = true)
    (hkf : janus_whiteboard_have_keyframe_l wb pkg.scene pkg.page = false)
    (ht : pkg.type = .DrawCommand ∨ (pkg.type = .PageChange ∧ pkg.page_info.isSome)) :
    (janus_whiteboard_save_package wb pkg now true).1.ret = 0 ∧
    (janus_whiteboard_save_package wb pkg now true).2.headerLog =
      wb.headerLog ++ [⟨pkg.scene, pkg.page, wb.dataLog.length, now⟩] ∧
    (∃ q, (janus_whiteboard_save_package wb pkg now true).2.dataLog =
        wb.dataLog ++ [q] ∧ q.scene = pkg.scene ∧ q.page = pkg.page ∧
        q.type = pkg.type) ∧
    pageKF (janus_whiteboard_save_package wb pkg now true).2 pkg.scene pkg.page =
      some ⟨pkg.scene, pkg.page, wb.dataLog.length, now⟩ := by
  obtain ⟨hs0, hslt, sc, hsc, hp0, hplt⟩ := (validScenes_iff wb.scenes pkg.scene pkg.page).mp hv
  rcases ht with htD | ⟨htP, hpis⟩
  · -- DrawCommand
    have hr := save_dc_eq wb pkg now hv (Or.inl htD)
    rw [hr]
    have f := saveDC_fields wb { pkg with timestamp := now }
    have hinst : ({ pkg with timestamp := now } : PbPackage).type = KLPackageType.CleanDraw ∨
        (0 ≤ ({ pkg with timestamp := now } : PbPackage).page ∧
          janus_whiteboard_have_keyframe_l wb
            ({ pkg with timestamp := now } : PbPackage).scene
            ({ pkg with timestamp := now } : PbPackage).page = false) :=
      Or.inr ⟨hp0, hkf⟩
    refine ⟨rfl, ?_, ?_, ?_⟩
    · rw [f.2.2.2.2.2.1, if_pos hinst]
      simp [mkKF]
    · exact ⟨{ pkg with timestamp := now }, f.2.2.2.1, rfl, rfl, rfl⟩
    · rw [pageKF_eq_pageKFm]
      show pageKFm (saveDC wb { pkg with timestamp := now }).scenes pkg.scene pkg.page = _
      rw [f.2.2.2.2.1, if_pos hinst]
      rw [pageKFm_install_self wb.scenes pkg.scene pkg.page _ sc hsc (by omega)]
      simp [mkKF]
  · -- PageChange with page_info present
    obtain ⟨pi0, hpi⟩ := Option.isSome_iff_exists.mp hpis
    have hr := save_pagechange_eq wb pkg now pi0 htP hpi hv
    rw [hr]
    have hsp := set_page_eq
      { wb with pageLog := wb.pageLog ++
          [PbPage.mk pkg.scene pkg.page pi0.timestamp pi0.angle pi0.scale pi0.move_x
            pi0.move_y] }
      (PbPage.mk pkg.scene pkg.page pi0.timestamp pi0.angle pi0.scale pi0.move_x pi0.move_y)
      sc hsc hp0 hplt
    have key : ∀ cp : JanusPage,
        (saveDC
          { scenes := insertScene wb.scenes pkg.scene
              (setPageScene sc (PbPage.mk pkg.scene pkg.page pi0.timestamp pi0.angle
                pi0.scale pi0.move_x pi0.move_y)),
            cur_page := cp, packages := wb.packages, dataLog := wb.dataLog,
            headerLog := wb.headerLog, sceneLog := wb.sceneLog,
            pageLog := wb.pageLog ++
              [PbPage.mk pkg.scene pkg.page pi0.timestamp pi0.angle pi0.scale pi0.move_x
                pi0.move_y] }
          (PbPackage.mk pkg.type pkg.scene pkg.page now pkg.cmd
            (some (PbPage.mk pkg.scene pkg.page pi0.timestamp pi0.angle pi0.scale
              pi0.move_x pi0.move_y)) pkg.newscene)).headerLog =
          wb.headerLog ++ [⟨pkg.scene, pkg.page, wb.dataLog.length, now⟩] ∧
        (∃ q, (saveDC
          { scenes := insertScene wb.scenes pkg.scene
              (setPageScene sc (PbPage.mk pkg.scene pkg.page pi0.timestamp pi0.angle
                pi0.scale pi0.move_x pi0.move_y)),
            cur_page := cp, packages := wb.packages, dataLog := wb.dataLog,
            headerLog := wb.headerLog, sceneLog := wb.sceneLog,
            pageLog := wb.pageLog ++
              [PbPage.mk pkg.scene pkg.page pi0.timestamp pi0.angle pi0.scale pi0.move_x
                pi0.move_y] }
          (PbPackage.mk pkg.type pkg.scene pkg.page now pkg.cmd
            (some (PbPage.mk pkg.scene pkg.page pi0.timestamp pi0.angle pi0.scale
              pi0.move_x pi0.move_y)) pkg.newscene)).dataLog =
            wb.dataLog ++ [q] ∧ q.scene = pkg.scene ∧ q.page = pkg.page ∧
            q.type = pkg.type) ∧
        pageKFm (saveDC
          { scenes := insertScene wb.scenes pkg.scene
              (setPageScene sc (PbPage.mk pkg.scene pkg.page pi0.timestamp pi0.angle
                pi0.scale pi0.move_x pi0.move_y)),
            cur_page := cp, packages := wb.packages, dataLog := wb.dataLog,
            headerLog := wb.headerLog, sceneLog := wb.sceneLog,
            pageLog := wb.pageLog ++
              [PbPage.mk pkg.scene pkg.page pi0.timestamp pi0.angle pi0.scale pi0.move_x
                pi0.move_y] }
          (PbPackage.mk pkg.type pkg.scene pkg.page now pkg.cmd
            (some (PbPage.mk pkg.scene pkg.page pi0.timestamp pi0.angle pi0.scale
              pi0.move_x pi0.move_y)) pkg.newscene)).scenes pkg.scene pkg.page =
          some ⟨pkg.scene, pkg.page, wb.dataLog.length, now⟩ := by
      intro cp
      have hkfm : pageKFm (insertScene wb.scenes pkg.scene
          (setPageScene sc (PbPage.mk pkg.scene pkg.page pi0.timestamp pi0.angle
            pi0.scale pi0.move_x pi0.move_y))) pkg.scene pkg.page =
          pageKFm wb.scenes pkg.scene pkg.page :=
        pageKFm_setPageScene wb
          (PbPage.mk pkg.scene pkg.page pi0.timestamp pi0.angle pi0.scale pi0.move_x
            pi0.move_y) sc hsc
          (show pkg.page.toNat < sc.pages.length by omega) pkg.scene pkg.page
      have hkfW : janus_whiteboard_have_keyframe_l
          (Whiteboard.mk (insertScene wb.scenes pkg.scene
            (setPageScene sc (PbPage.mk pkg.scene pkg.page pi0.timestamp pi0.angle
              pi0.scale pi0.move_x pi0.move_y))) cp wb.packages wb.dataLog wb.headerLog
            wb.sceneLog (wb.pageLog ++
              [PbPage.mk pkg.scene pkg.page pi0.timestamp pi0.angle pi0.scale pi0.move_x
                pi0.move_y])) pkg.scene pkg.page = false := by
        rw [have_keyframe_eq _ _ _ hp0, pageKF_eq_pageKFm]
        show (pageKFm (insertScene wb.scenes pkg.scene
          (setPageScene sc (PbPage.mk pkg.scene pkg.page pi0.timestamp pi0.angle
            pi0.scale pi0.move_x pi0.move_y))) pkg.scene pkg.page).isSome = false
        rw [hkfm]
        rw [have_keyframe_eq _ _ _ hp0] at hkf
        exact hkf
      have f := saveDC_fields
        (Whiteboard.mk (insertScene wb.scenes pkg.scene
          (setPageScene sc (PbPage.mk pkg.scene pkg.page pi0.timestamp pi0.angle
            pi0.scale pi0.move_x pi0.move_y))) cp wb.packages wb.dataLog wb.headerLog
          wb.sceneLog (wb.pageLog ++
            [PbPage.mk pkg.scene pkg.page pi0.timestamp pi0.angle pi0.scale pi0.move_x
              pi0.move_y]))
        (PbPackage.mk pkg.type pkg.scene pkg.page now pkg.cmd
          (some (PbPage.mk pkg.scene pkg.page pi0.timestamp pi0.angle pi0.scale
            pi0.move_x pi0.move_y)) pkg.newscene)
      have hinst : (PbPackage.mk pkg.type pkg.scene pkg.page now pkg.cmd
          (some (PbPage.mk pkg.scene pkg.page pi0.timestamp pi0.angle pi0.scale
            pi0.move_x pi0.move_y)) pkg.newscene).type = KLPackageType.CleanDraw ∨
          (0 ≤ (PbPackage.mk pkg.type pkg.scene pkg.page now pkg.cmd
            (some (PbPage.mk pkg.scene pkg.page pi0.timestamp pi0.angle pi0.scale
              pi0.move_x pi0.move_y)) pkg.newscene).page ∧
            janus_whiteboard_have_keyframe_l
              (Whiteboard.mk (insertScene wb.scenes pkg.scene
                (setPageScene sc (PbPage.mk pkg.scene pkg.page pi0.timestamp pi0.angle
                  pi0.scale pi0.move_x pi0.move_y))) cp wb.packages wb.dataLog
                wb.headerLog wb.sceneLog (wb.pageLog ++
                  [PbPage.mk pkg.scene pkg.page pi0.timestamp pi0.angle pi0.scale
                    pi0.move_x pi0.move_y])) pkg.scene pkg.page = false) :=
        Or.inr ⟨hp0, hkfW⟩
      refine ⟨?_, ?_, ?_⟩
      · rw [f.2.2.2.2.2.1, if_pos hinst]
        simp [mkKF]
      · refine ⟨PbPackage.mk pkg.type pkg.scene pkg.page now pkg.cmd
          (some (PbPage.mk pkg.scene pkg.page pi0.timestamp pi0.angle pi0.scale
            pi0.move_x pi0.move_y)) pkg.newscene, f.2.2.2.1, rfl, rfl, rfl⟩
      · rw [f.2.2.2.2.1, if_pos hinst]
        rw [pageKFm_install_self _ pkg.scene pkg.page _
          (setPageScene sc (PbPage.mk pkg.scene pkg.page pi0.timestamp pi0.angle
            pi0.scale pi0.move_x pi0.move_y))
          (lookupScene_insertScene_self _ _ _) (by simp [setPageScene]; omega)]
        simp [mkKF]
    simp only [savePC, hsp]
    by_cases hcur : wb.cur_page.scene = (setPageStored sc (PbPage.mk pkg.scene pkg.page
        pi0.timestamp pi0.angle pi0.scale pi0.move_x pi0.move_y)).scene ∧
        wb.cur_page.page = (setPageStored sc (PbPage.mk pkg.scene pkg.page pi0.timestamp
        pi0.angle pi0.scale pi0.move_x pi0.move_y)).page
    · simp only [if_pos hcur]
      have hk := key (setPageStored sc (PbPage.mk pkg.scene pkg.page pi0.timestamp
        pi0.angle pi0.scale pi0.move_x pi0.move_y))
      exact ⟨by trivial, hk.1, hk.2.1, by rw [pageKF_eq_pageKFm]; exact hk.2.2⟩
    · simp only [if_neg hcur]
      have hk := key wb.cur_page
      exact ⟨by trivial, hk.1, hk.2.1, by rw [pageKF_eq_pageKFm]; exact hk.2.2⟩

/-- C4 counterexample: a DrawCommand naming a nonexistent scene (index 5) is
accepted by `save_package` (ret = 0) and appended to the data log, yet no
key frame is created anywhere — the header log stays empty and the page
still has no key frame — so a page with a logged package need not have a
key frame to reconstruct from, contradicting the unconditional reading of
the claim. -/
theorem claim_C4_counterexample :
    (janus_whiteboard_save_package wbFix { drawFix with scene := 5 } 3 true).1.ret = 0 ∧
    (janus_whiteboard_save_package wbFix { drawFix with scene := 5 } 3 true).2.dataLog =
      [{ drawFix with scene := 5, timestamp := 3 }] ∧
    (janus_whiteboard_save_package wbFix { drawFix with scene := 5 } 3 true).2.headerLog
      = [] ∧
    janus_whiteboard_have_keyframe_l
      (janus_whiteboard_save_package wbFix { drawFix with scene := 5 } 3 true).2 5 0 =
      false := by
  decide

theorem claim_C4_amended_witness :
    (janus_whiteboard_save_package wbFix drawFix 3 true).1.ret = 0 ∧
    (janus_whiteboard_save_package wbFix drawFix 3 true).2.headerLog =
      wbFix.headerLog ++ [⟨drawFix.scene, drawFix.page, wbFix.dataLog.length, 3⟩] ∧
    (∃ q, (janus_whiteboard_save_package wbFix drawFix 3 true).2.dataLog =
        wbFix.dataLog ++ [q] ∧ q.scene = drawFix.scene ∧ q.page = drawFix.page ∧
        q.type = drawFix.type) ∧
    pageKF (janus_whiteboard_save_package wbFix drawFix 3 true).2 drawFix.scene
      drawFix.page = some ⟨drawFix.scene, drawFix.page, wbFix.dataLog.length, 3⟩ :=
  claim_C4_amended wbFix drawFix 3 (by decide) (by decide) (Or.inl rfl)

/-! Claim C5: header-log replay during recovery.  In part_002 the replay
installs each decoded key frame by the record's OWN scene/page fields and
never seeks the data log; the data-log-authoritative behaviour the spec
describes belongs to the older whiteboard.c variant. -/

theorem installKeyFrame_valid (wb : Whiteboard) (kf : PbKeyFrame) (sc : JanusScene)
    (hsc : lookupScene wb.scenes kf.scene = some sc) (hp0 : 0 ≤ kf.page)
    (hplt : kf.page < (sc.pages.length : Int)) :
    installKeyFrame wb kf =
      { wb with scenes := installKFScenes wb.scenes kf.scene kf.page kf } := by
  unfold installKeyFrame
  cases hslot : sc.pages.getD kf.page.toNat none with
  | some pg =>
    rw [get_page_slot_some wb kf.scene kf.page sc pg hsc hp0 hplt hslot]
    simp only [setPageSlot, installKFScenes, hsc, kfScene, kfStored, hslot,
      Option.getD_some]
  | none =>
    rw [get_page_slot_none wb kf.scene kf.page sc hsc hp0 hplt hslot]
    simp only [setPageSlot, lookupScene_insertScene_self, installKFScenes, hsc,
      kfScene, kfStored, matScene, hslot, Option.getD_none,
      insertScene_insertScene_same, List.set_set]

theorem installKeyFrame_cases (wb : Whiteboard) (kf : PbKeyFrame) :
    installKeyFrame wb kf = wb ∨
    (∃ sc, lookupScene wb.scenes kf.scene = some sc ∧ 0 ≤ kf.page ∧
      kf.page < (sc.pages.length : Int) ∧
      installKeyFrame wb kf =
        { wb with scenes := installKFScenes wb.scenes kf.scene kf.page kf }) := by
  cases hl : lookupScene wb.scenes kf.scene with
  | none =>
    left
    unfold installKeyFrame janus_whiteboard_get_page
    simp only [hl]
  | some sc =>
    by_cases hb : 0 ≤ kf.page ∧ kf.page < (sc.pages.length : Int)
    · right
      exact ⟨sc, rfl, hb.1, hb.2, installKeyFrame_valid wb kf sc hl hb.1 hb.2⟩
    · left
      unfold installKeyFrame janus_whiteboard_get_page
      simp only [hl, if_neg hb]

theorem install_preserve (wb : Whiteboard) (kf : PbKeyFrame) (s : Int)
    (sc : JanusScene) (hsc : lookupScene wb.scenes s = some sc) :
    ∃ sc', lookupScene (installKeyFrame wb kf).scenes s = some sc' ∧
      sc'.pages.length = sc.pages.length := by
  rcases installKeyFrame_cases wb kf with h | ⟨sc2, hl2, hp02, hplt2, h⟩
  · rw [h]
    exact ⟨sc, hsc, rfl⟩
  · rw [h]
    by_cases hs : kf.scene = s
    · subst hs
      rw [hsc] at hl2
      injection hl2 with he
      subst he
      refine ⟨kfScene sc kf.scene kf.page kf, ?_, ?_⟩
      · exact lookup_installKFScenes_self wb.scenes kf.scene kf.page kf sc hsc
      · simp [kfScene]
    · refine ⟨sc, ?_, rfl⟩
      show lookupScene (installKFScenes wb.scenes kf.scene kf.page kf) s = some sc
      rw [lookup_installKFScenes_ne wb.scenes kf.scene kf.page kf s
        (fun hh => hs hh.symm)]
      exact hsc

theorem pageKFm_install_step_other (wb : Whiteboard) (kf : PbKeyFrame) (s p : Int)
    (hp0 : 0 ≤ p) (hne : ¬(kf.scene = s ∧ kf.page = p)) :
    pageKFm (installKeyFrame wb kf).scenes s p = pageKFm wb.scenes s p := by
  rcases installKeyFrame_cases wb kf with h | ⟨sc2, hl2, hp02, hplt2, h⟩
  · rw [h]
  · rw [h]
    apply pageKFm_install_other
    by_cases hs : s = kf.scene
    · right
      have hpne : kf.page ≠ p := fun hh => hne ⟨hs.symm, hh⟩
      omega
    · left
      exact hs

theorem pageKFm_install_step_self (wb : Whiteboard) (kf : PbKeyFrame)
    (sc : JanusScene) (hsc : lookupScene wb.scenes kf.scene = some sc)
    (hp0 : 0 ≤ kf.page) (hplt : kf.page < (sc.pages.length : Int)) :
    pageKFm (installKeyFrame wb kf).scenes kf.scene kf.page = some kf := by
  rw [installKeyFrame_valid wb kf sc hsc hp0 hplt]
  exact pageKFm_install_self wb.scenes kf.scene kf.page kf sc hsc (by omega)

/-- Last-one-wins reduction over the header log keyed by each record's own
scene/page fields: the property side of claim C5. -/
def lastKF (base : Option PbKeyFrame) (l : List PbKeyFrame) (s p : Int) :
    Option PbKeyFrame :=
  l.foldl (fun acc kf => if kf.scene = s ∧ kf.page = p then some kf else acc) base

theorem pageKFm_foldl_installKeyFrame (header : List PbKeyFrame) (s p : Int)
    (hp0 : 0 ≤ p) :
    ∀ (wb : Whiteboard) (sc : JanusScene), lookupScene wb.scenes s = some sc →
      p < (sc.pages.length : Int) →
      pageKFm (header.foldl installKeyFrame wb).scenes s p =
        lastKF (pageKFm wb.scenes s p) header s p := by
  induction header with
  | nil =>
    intro wb sc hsc hplt
    rfl
  | cons kf rest ih =>
    intro wb sc hsc hplt
    obtain ⟨sc', hsc', hlen⟩ := install_preserve wb kf s sc hsc
    have step := ih (installKeyFrame wb kf) sc' hsc' (by omega)
    show pageKFm ((rest.foldl installKeyFrame (installKeyFrame wb kf))).scenes s p = _
    rw [step]
    by_cases hkf : kf.scene = s ∧ kf.page = p
    · obtain ⟨h1, h2⟩ := hkf
      subst h1
      subst h2
      rw [pageKFm_install_step_self wb kf sc hsc hp0 hplt]
      show lastKF (some kf) rest kf.scene kf.page =
        lastKF (if kf.scene = kf.scene ∧ kf.page = kf.page then some kf
          else pageKFm wb.scenes kf.scene kf.page) rest kf.scene kf.page
      rw [if_pos ⟨rfl, rfl⟩]
    · rw [pageKFm_install_step_other wb kf s p hp0 hkf]
      show lastKF (pageKFm wb.scenes s p) rest s p =
        lastKF (if kf.scene = s ∧ kf.page = p then some kf
          else pageKFm wb.scenes s p) rest s p
      rw [if_neg hkf]

/-- No page of the directory holds a key frame. -/
def noKF (m : List (Int × JanusScene)) : Prop := ∀ s p : Int, pageKFm m s p = none

/-- Every slot of the scene reads back with no key frame. -/
def sceneNoKF (v : JanusScene) : Prop :=
  ∀ i : Nat, (match v.pages.getD i none with
              | some pg => pg.key_frame
              | none => none) = none

theorem noKF_nil : noKF [] := by
  intro s p
  rfl

theorem noKF_insert (m : List (Int × JanusScene)) (k : Int) (v : JanusScene)
    (h : noKF m) (hv : sceneNoKF v) : noKF (insertScene m k v) := by
  intro s p
  unfold pageKFm
  by_cases hk : s = k
  · subst hk
    rw [lookupScene_insertScene_self]
    exact hv p.toNat
  · rw [lookupScene_insertScene_ne m k s v hk]
    exact h s p

theorem sceneNoKF_replicate (src : Option String) (url : String) (ty idx : Int)
    (n : Nat) :
    sceneNoKF (JanusScene.mk src url ty idx (List.replicate n none)) := by
  intro i
  show (match (List.replicate n (none : Option JanusPage)).getD i none with
        | some pg => pg.key_frame
        | none => none) = none
  rw [getD_replicate_none]

theorem noKF_scene_fold (sceneLog : List PbScene) :
    ∀ m : List (Int × JanusScene), noKF m →
      noKF (sceneLog.foldl
        (fun m s => insertScene m s.index
          { source_id := s.resourceid, source_url := s.resource, type := 0,
            index := s.index, pages := List.replicate s.pagecount.toNat none }) m) := by
  induction sceneLog with
  | nil =>
    intro m h
    exact h
  | cons sp rest ih =>
    intro m h
    exact ih _ (noKF_insert m sp.index _ h
      (sceneNoKF_replicate sp.resourceid sp.resource 0 sp.index sp.pagecount.toNat))

theorem initStep_some (m0 : List (Int × JanusScene)) (c0 : JanusPage)
    (pi : PbPage) :
    janus_whiteboard_init_scene_step (some (m0, c0)) pi =
      match lookupScene m0 pi.scene with
      | none => none
      | some sc =>
        if 0 ≤ pi.page ∧ pi.page < (sc.pages.length : Int) then
          some (insertScene m0 pi.scene
            { sc with pages := sc.pages.set pi.page.toNat (some (initPg sc pi)) },
            initPg sc pi)
        else none := rfl

theorem initStep_lookup_none (m0 : List (Int × JanusScene)) (c0 : JanusPage)
    (pi : PbPage) (hl : lookupScene m0 pi.scene = none) :
    janus_whiteboard_init_scene_step (some (m0, c0)) pi = none := by
  rw [initStep_some, hl]

theorem initStep_invalid (m0 : List (Int × JanusScene)) (c0 : JanusPage)
    (pi : PbPage) (sc : JanusScene) (hl : lookupScene m0 pi.scene = some sc)
    (hb : ¬(0 ≤ pi.page ∧ pi.page < (sc.pages.length : Int))) :
    janus_whiteboard_init_scene_step (some (m0, c0)) pi = none := by
  rw [initStep_some, hl]
  simp only [if_neg hb]

theorem initStep_valid (m0 : List (Int × JanusScene)) (c0 : JanusPage)
    (pi : PbPage) (sc : JanusScene) (hl : lookupScene m0 pi.scene = some sc)
    (hb : 0 ≤ pi.page ∧ pi.page < (sc.pages.length : Int)) :
    janus_whiteboard_init_scene_step (some (m0, c0)) pi =
      some (insertScene m0 pi.scene
        { sc with pages := sc.pages.set pi.page.toNat (some (initPg sc pi)) },
        initPg sc pi) := by
  rw [initStep_some, hl]
  simp only [if_pos hb]

theorem noKF_page_fold (pageLog : List PbPage) :
    ∀ acc : Option (List (Int × JanusScene) × JanusPage),
      (∀ m c, acc = some (m, c) → noKF m) →
      ∀ m c, pageLog.foldl janus_whiteboard_init_scene_step acc = some (m, c) →
        noKF m := by
  induction pageLog with
  | nil =>
    intro acc hacc m c h
    exact hacc m c h
  | cons pi rest ih =>
    intro acc hacc m c h
    refine ih (janus_whiteboard_init_scene_step acc pi) ?_ m c h
    intro m1 c1 heq
    cases acc with
    | none => exact Option.noConfusion heq
    | some mc =>
      obtain ⟨m0, c0⟩ := mc
      have hm0 := hacc m0 c0 rfl
      cases hl : lookupScene m0 pi.scene with
      | none =>
        rw [initStep_lookup_none m0 c0 pi hl] at heq
        exact Option.noConfusion heq
      | some sc =>
        by_cases hb : 0 ≤ pi.page ∧ pi.page < (sc.pages.length : Int)
        · rw [initStep_valid m0 c0 pi sc hl hb] at heq
          injection heq with hpair
          injection hpair with h1 h2
          rw [← h1]
          refine noKF_insert _ _ _ hm0 ?_
          intro i
          show (match ((sc.pages.set pi.page.toNat (some (initPg sc pi))).getD i none)
                with
                | some pg => pg.key_frame
                | none => none) = none
          by_cases hij : i = pi.page.toNat
          · subst hij
            rw [getD_set_self _ _ _ (by omega : pi.page.toNat < sc.pages.length)]
            show (match sc.pages.getD pi.page.toNat none with
                  | some p => p.key_frame | none => none) = none
            have h0 := hm0 pi.scene pi.page
            unfold pageKFm at h0
            rw [hl] at h0
            exact h0
          · rw [getD_set_ne _ _ _ _ (fun hh => hij hh.symm)]
            have h0 := hm0 pi.scene (i : Int)
            unfold pageKFm at h0
            rw [hl] at h0
            exact h0
        · rw [initStep_invalid m0 c0 pi sc hl hb] at heq
          exact Option.noConfusion heq

theorem init_scene_noKF (sceneLog : List PbScene) (pageLog : List PbPage)
    (m : List (Int × JanusScene)) (c : JanusPage)
    (h : janus_whiteboard_init_scene_from_file_l sceneLog pageLog = some (m, c)) :
    noKF m := by
  unfold janus_whiteboard_init_scene_from_file_l at h
  refine noKF_page_fold pageLog
    (some (sceneLog.foldl
      (fun m s => insertScene m s.index
        { source_id := s.resourceid, source_url := s.resource, type := 0,
          index := s.index, pages := List.replicate s.pagecount.toNat none })
      ([] : List (Int × JanusScene)),
      JanusPage.mk 0 0 0 0 0 0 none)) ?_ m c h
  intro m1 c1 heq
  injection heq with hpair
  injection hpair with h1 h2
  rw [← h1]
  exact noKF_scene_fold sceneLog [] noKF_nil

/-- C5 counterexample: open a session whose header log holds one KeyFrame
record with scene = 0, page = 1, offset = 0, while the data-log record at
offset 0 is a DrawCommand for (scene 0, page 0).  Were the data log
authoritative, recovery would install the key frame into page (0, 0); the
code instead installs it by the record's own scene/page fields into
page (0, 1) and never seeks the data log, so (0, 0) ends up with no key
frame at all. -/
theorem claim_C5_counterexample :
    drawFix.scene = 0 ∧ drawFix.page = 0 ∧
    (janus_whiteboard_create [sceneFix] [] [⟨0, 1, 0, 7⟩] [drawFix]).map
      (fun wb => (pageKF wb 0 0, pageKF wb 0 1)) =
      some (none, some ⟨0, 1, 0, 7⟩) := by
  decide

/-- C5 (amended): header-log replay during recovery installs each decoded
KeyFrame record into the page named by the record's OWN scene/page fields —
the data log is never consulted (the result is the same for every data
log) — overwriting any earlier key frame installed for the same page
(last-one-wins); records whose page cannot be materialised are skipped.
For any page (s, p) valid in the replayed scene directory, the key frame
recovery leaves on it is exactly the last header-log record carrying those
scene/page fields. -/
theorem claim_C5_amended (sceneLog : List PbScene) (pageLog : List PbPage)
    (header : List PbKeyFrame) (dataLog : List PbPackage) (wb1 : Whiteboard)
    (hparse : janus_whiteboard_parse_or_create_header_l sceneLog pageLog header
      dataLog = some wb1)
    (s p : Int) (m : List (Int × JanusScene)) (c : JanusPage)
    (hinit : janus_whiteboard_init_scene_from_file_l sceneLog pageLog = some (m, c))
    (sc : JanusScene) (hsc : lookupScene m s = some sc) (hp0 : 0 ≤ p)
    (hplt : p < (sc.pages.length : Int)) :
    pageKF wb1 s p = lastKF none header s p := by
  have hface : janus_whiteboard_parse_or_create_header_l sceneLog pageLog header
      dataLog = some (header.foldl installKeyFrame
        (Whiteboard.mk m
          (if c.scale = 0 ∧ c.scene = 0 ∧ c.page = 0 then
            JanusPage.mk 0 0 0 1 0 0 none
           else c)
          [] dataLog header sceneLog pageLog)) := by
    unfold janus_whiteboard_parse_or_create_header_l
    rw [hinit]
  rw [hface] at hparse
  injection hparse with h1
  rw [← h1]
  rw [pageKF_eq_pageKFm]
  rw [pageKFm_foldl_installKeyFrame header s p hp0 _ sc hsc hplt]
  have hnone : pageKFm m s p = none := init_scene_noKF sceneLog pageLog m c hinit s p
  show lastKF (pageKFm m s p) header s p = lastKF none header s p
  rw [hnone]

/-- Witness fixture: a header log with two key-frame records for (0, 0). -/
def hdrC5 : List PbKeyFrame := [⟨0, 0, 0, 7⟩, ⟨0, 0, 1, 9⟩]

/-- Witness fixture: the whiteboard recovered from `hdrC5`. -/
def wbC5 : Whiteboard :=
  (janus_whiteboard_parse_or_create_header_l [sceneFix] [] hdrC5 []).getD wbFix

/-- Witness fixture: the scene directory replayed from the scene log alone. -/
def mC5 : List (Int × JanusScene) :=
  ((janus_whiteboard_init_scene_from_file_l [sceneFix] []).getD
    ([], defaultPage 0 0)).1

/-- Witness fixture: the current page replayed from the scene log alone. -/
def cC5 : JanusPage :=
  ((janus_whiteboard_init_scene_from_file_l [sceneFix] []).getD
    ([], defaultPage 0 0)).2

/-- Witness fixture: scene 0 of the replayed directory. -/
def scC5 : JanusScene :=
  (lookupScene mC5 0).getD (JanusScene.mk none "" 0 0 [])

theorem claim_C5_amended_witness :
    pageKF wbC5 0 0 = lastKF none hdrC5 0 0 :=
  claim_C5_amended [sceneFix] [] hdrC5 [] wbC5 (by decide) 0 0 mC5 cC5 (by decide)
    scC5 (by decide) (by decide) (by decide)

/-! Claim C1: the file round trip for DrawCommand packages on (0, 0). -/

/-- The scene directory of the one-scene fixture once page (0, 0) carries a
key frame stamped `t` at data-log offset 0. -/
def kfSceneC1 (t : Int) : List (Int × JanusScene) :=
  [(0, { source_id := none, source_url := "slide1.png", type := 0, index := 0,
         pages := [some { defaultPage 0 0 with
                          key_frame := some (⟨0, 0, 0, t⟩ : PbKeyFrame) },
                   none] })]

/-- The fixture session after the bootstrap key frame (stamped `t`) with data
log `dl` and current-view cache `cache`. -/
def wbFixK (t : Int) (dl cache : List PbPackage) : Whiteboard :=
  { scenes := kfSceneC1 t, cur_page := defaultPage 0 0, packages := cache,
    dataLog := dl, headerLog := [⟨0, 0, 0, t⟩], sceneLog := [sceneFix],
    pageLog := [] }

theorem saveDC_noinstall (wb : Whiteboard) (pkg : PbPackage)
    (ht : pkg.type = KLPackageType.DrawCommand)
    (hkf : janus_whiteboard_have_keyframe_l wb pkg.scene pkg.page = true)
    (hcur : pkg.scene = wb.cur_page.scene ∧ pkg.page = wb.cur_page.page) :
    saveDC wb pkg = { wb with dataLog := wb.dataLog ++ [pkg],
                              packages := wb.packages ++ [pkg] } := by
  unfold saveDC
  have h1 : ¬(pkg.type = KLPackageType.CleanDraw ∨
      (0 ≤ pkg.page ∧
        janus_whiteboard_have_keyframe_l wb pkg.scene pkg.page = false)) := by
    rintro (hc | ⟨_, hf⟩)
    · rw [ht] at hc
      exact KLPackageType.noConfusion hc
    · rw [hkf] at hf
      exact Bool.noConfusion hf
  simp only [if_neg h1, if_pos hcur, add_pkt_draw _ _ ht]

theorem first_draw (p : PbPackage) (t : Int) (ht : p.type = KLPackageType.DrawCommand)
    (hs : p.scene = 0) (hp : p.page = 0) :
    (janus_whiteboard_save_package wbFix p t true).2 =
      wbFixK t [{ p with timestamp := t }] [{ p with timestamp := t }] := by
  have hv : validSP wbFix p.scene p.page = true := by
    rw [hs, hp]
    decide
  rw [save_dc_eq wbFix p t hv (Or.inl ht)]
  show saveDC wbFix { p with timestamp := t } = _
  unfold saveDC
  have h1 : ({ p with timestamp := t } : PbPackage).type = KLPackageType.CleanDraw ∨
      (0 ≤ ({ p with timestamp := t } : PbPackage).page ∧
        janus_whiteboard_have_keyframe_l wbFix
          ({ p with timestamp := t } : PbPackage).scene
          ({ p with timestamp := t } : PbPackage).page = false) := by
    right
    refine ⟨?_, ?_⟩
    · show 0 ≤ p.page
      rw [hp]
    · show janus_whiteboard_have_keyframe_l wbFix p.scene p.page = false
      rw [hs, hp]
      decide
  simp only [if_pos h1]
  have h2 : ({ p with timestamp := t } : PbPackage).scene = wbFix.cur_page.scene ∧
      ({ p with timestamp := t } : PbPackage).page = wbFix.cur_page.page := by
    refine ⟨?_, ?_⟩
    · show p.scene = wbFix.cur_page.scene
      rw [hs]
      rfl
    · show p.page = wbFix.cur_page.page
      rw [hp]
      rfl
  simp only [if_pos h2]
  rw [add_pkt_draw _ _ (show ({ p with timestamp := t } : PbPackage).type =
    KLPackageType.DrawCommand from ht)]
  show ({ wbFix with
    scenes := installKFScenes wbFix.scenes p.scene p.page
      (mkKF wbFix { p with timestamp := t }),
    headerLog := wbFix.headerLog ++ [mkKF wbFix { p with timestamp := t }],
    dataLog := wbFix.dataLog ++ [{ p with timestamp := t }],
    packages := wbFix.packages ++ [{ p with timestamp := t }] } : Whiteboard) = _
  rw [hs, hp]
  simp [wbFix, wbFixK, kfSceneC1, sceneFix, installKFScenes, lookupScene,
    insertScene, kfScene, kfStored, mkKF, defaultPage]

theorem applySaves_draws_after (rest : List (PbPackage × Int)) :
    (∀ s ∈ rest, s.1.type = KLPackageType.DrawCommand ∧ s.1.scene = 0 ∧
      s.1.page = 0) →
    ∀ wb : Whiteboard, wb.cur_page.scene = 0 → wb.cur_page.page = 0 →
      janus_whiteboard_have_keyframe_l wb 0 0 = true →
      validSP wb 0 0 = true →
      applySaves wb rest =
        { wb with
          dataLog := wb.dataLog ++ rest.map (fun s => { s.1 with timestamp := s.2 }),
          packages :=
            wb.packages ++ rest.map (fun s => { s.1 with timestamp := s.2 }) } := by
  induction rest with
  | nil =>
    intro _ wb _ _ _ _
    simp [applySaves]
  | cons st tail ih =>
    intro hall wb hc1 hc2 hkf hv
    have hst := hall st (List.mem_cons_self _ _)
    have hsave : (janus_whiteboard_save_package wb st.1 st.2 true).2 =
        saveDC wb { st.1 with timestamp := st.2 } := by
      have hv' : validSP wb st.1.scene st.1.page = true := by
        rw [hst.2.1, hst.2.2]
        exact hv
      rw [save_dc_eq wb st.1 st.2 hv' (Or.inl hst.1)]
    have hdc : saveDC wb { st.1 with timestamp := st.2 } =
        { wb with
          dataLog := wb.dataLog ++ [{ st.1 with timestamp := st.2 }],
          packages := wb.packages ++ [{ st.1 with timestamp := st.2 }] } := by
      apply saveDC_noinstall
      · exact hst.1
      · show janus_whiteboard_have_keyframe_l wb st.1.scene st.1.page = true
        rw [hst.2.1, hst.2.2]
        exact hkf
      · refine ⟨?_, ?_⟩
        · show st.1.scene = wb.cur_page.scene
          rw [hst.2.1, hc1]
        · show st.1.page = wb.cur_page.page
          rw [hst.2.2, hc2]
    show applySaves ((janus_whiteboard_save_package wb st.1 st.2 true).2) tail = _
    rw [hsave, hdc]
    rw [ih (fun s hs => hall s (List.mem_cons_of_mem _ hs))
      { wb with
        dataLog := wb.dataLog ++ [{ st.1 with timestamp := st.2 }],
        packages := wb.packages ++ [{ st.1 with timestamp := st.2 }] }
      hc1 hc2 hkf hv]
    simp

theorem wbFixK_kf (t : Int) (dl c : List PbPackage) :
    janus_whiteboard_have_keyframe_l (wbFixK t dl c) 0 0 = true := by
  simp [janus_whiteboard_have_keyframe_l, wbFixK, kfSceneC1, lookupScene,
    defaultPage, List.getD]

theorem wbFixK_valid (t : Int) (dl c : List PbPackage) :
    validSP (wbFixK t dl c) 0 0 = true := by
  simp [validSP, validScenes, wbFixK, kfSceneC1, lookupScene]

theorem applySaves_wbFix (st : PbPackage × Int) (rest : List (PbPackage × Int))
    (hall : ∀ s ∈ st :: rest, s.1.type = KLPackageType.DrawCommand ∧
      s.1.scene = 0 ∧ s.1.page = 0) :
    applySaves wbFix (st :: rest) =
      wbFixK st.2 ((st :: rest).map (fun s => { s.1 with timestamp := s.2 }))
        ((st :: rest).map (fun s => { s.1 with timestamp := s.2 })) := by
  have hst := hall st (List.mem_cons_self _ _)
  show applySaves ((janus_whiteboard_save_package wbFix st.1 st.2 true).2) rest = _
  rw [first_draw st.1 st.2 hst.1 hst.2.1 hst.2.2]
  rw [applySaves_draws_after rest (fun s hs => hall s (List.mem_cons_of_mem _ hs))
    (wbFixK st.2 [{ st.1 with timestamp := st.2 }] [{ st.1 with timestamp := st.2 }])
    rfl rfl (wbFixK_kf st.2 _ _) (wbFixK_valid st.2 _ _)]
  simp [wbFixK]

theorem create_C1_parse (t : Int) (dl : List PbPackage) :
    janus_whiteboard_parse_or_create_header_l [sceneFix] [] [⟨0, 0, 0, t⟩] dl =
      some (wbFixK t dl []) := rfl

theorem scan_all_draws (l : List PbPackage)
    (h : ∀ q ∈ l, q.type = KLPackageType.DrawCommand ∧ q.scene = 0 ∧ q.page = 0) :
    ∀ acc, l.foldl (scanStep 0 0) acc = acc ++ l := by
  induction l with
  | nil =>
    intro acc
    simp
  | cons q l' ih =>
    intro acc
    have hq := h q (List.mem_cons_self _ _)
    show l'.foldl (scanStep 0 0) (scanStep 0 0 acc q) = acc ++ q :: l'
    have hs : scanStep 0 0 acc q = acc ++ [q] := by
      unfold scanStep
      rw [if_pos ⟨hq.2.1, hq.2.2⟩, add_pkt_draw _ _ hq.1]
    rw [hs, ih (fun r hr => h r (List.mem_cons_of_mem _ hr))]
    simp

theorem create_C1 (t : Int) (dl : List PbPackage)
    (hdl : ∀ q ∈ dl, q.type = KLPackageType.DrawCommand ∧ q.scene = 0 ∧
      q.page = 0) :
    janus_whiteboard_create [sceneFix] [] [⟨0, 0, 0, t⟩] dl =
      some (wbFixK t dl dl) := by
  unfold janus_whiteboard_create
  rw [create_C1_parse t dl]
  have hscan : janus_whiteboard_scene_page_data_l (wbFixK t dl []) 0 0 [] =
      some (dl, wbFixK t dl []) := by
    unfold janus_whiteboard_scene_page_data_l
    have hg : janus_whiteboard_get_page (wbFixK t dl []) 0 0 =
        (some { defaultPage 0 0 with key_frame := some (⟨0, 0, 0, t⟩ : PbKeyFrame) },
         wbFixK t dl []) := rfl
    rw [hg]
    show some (((wbFixK t dl []).dataLog.drop 0).foldl (scanStep 0 0) [],
      wbFixK t dl []) = _
    rw [show (wbFixK t dl []).dataLog.drop 0 = dl from rfl]
    rw [scan_all_draws dl hdl []]
    simp
  show (match janus_whiteboard_scene_page_data_l (wbFixK t dl []) 0 0 [] with
        | some (acc, wb') => some { wb' with packages := acc }
        | none => some (wbFixK t dl [])) = some (wbFixK t dl dl)
  rw [hscan]
  rfl

theorem query_C1 (t : Int) (dl : List PbPackage) (q : PbPackage) (tq : Int)
    (hq : q.type = KLPackageType.ScenePageData) (hqs : q.scene = 0)
    (hqp : q.page = 0) :
    janus_whiteboard_save_package (wbFixK t dl dl) q tq true =
      ({ ret := 1, keyframe := (janus_whiteboard_packed_data_l dl).keyframe,
         command := some (janus_whiteboard_packed_data_l dl).command,
         package_type := KLPackageType.None }, wbFixK t dl dl) := by
  obtain ⟨qt, qs, qp, qts, qc, qpi, qns⟩ := q
  have hq' : qt = KLPackageType.ScenePageData := hq
  have hqs' : qs = 0 := hqs
  have hqp' : qp = 0 := hqp
  subst hq'
  subst hqs'
  subst hqp'
  rfl

/-- C1: round trip through the files.  Appending N ≥ 1 DrawCommand packages
for (scene 0, page 0) to the one-scene session, then recreating a session
with `janus_whiteboard_create` from the four log files left behind, makes a
ScenePageData request for (0, 0) return ret = 1 with a single
DrawCommand-typed package (no key-frame output) whose command list is, in
order, the concatenation of the commands of all N appended packages. -/
theorem claim_C1_round_trip (st : PbPackage × Int) (rest : List (PbPackage × Int))
    (hall : ∀ s ∈ st :: rest, s.1.type = KLPackageType.DrawCommand ∧
      s.1.scene = 0 ∧ s.1.page = 0)
    (q : PbPackage) (tq : Int) (hq : q.type = KLPackageType.ScenePageData)
    (hqs : q.scene = 0) (hqp : q.page = 0) :
    ∃ wb2,
      janus_whiteboard_create (applySaves wbFix (st :: rest)).sceneLog
        (applySaves wbFix (st :: rest)).pageLog
        (applySaves wbFix (st :: rest)).headerLog
        (applySaves wbFix (st :: rest)).dataLog = some wb2 ∧
      (janus_whiteboard_save_package wb2 q tq true).1.ret = 1 ∧
      (janus_whiteboard_save_package wb2 q tq true).1.keyframe = none ∧
      ∃ out, (janus_whiteboard_save_package wb2 q tq true).1.command = some out ∧
        out.type = KLPackageType.DrawCommand ∧
        out.cmd = ((st :: rest).map (fun s => s.1.cmd)).flatten := by
  rw [applySaves_wbFix st rest hall]
  have hdl : ∀ r ∈ (st :: rest).map
      (fun s => ({ s.1 with timestamp := s.2 } : PbPackage)),
      r.type = KLPackageType.DrawCommand ∧ r.scene = 0 ∧ r.page = 0 := by
    intro r hr
    rw [List.mem_map] at hr
    obtain ⟨s, hs, hrs⟩ := hr
    have h1 := hall s hs
    rw [← hrs]
    exact ⟨h1.1, h1.2.1, h1.2.2⟩
  have hfirst : ({ st.1 with timestamp := st.2 } : PbPackage).type =
      KLPackageType.DrawCommand := (hall st (List.mem_cons_self _ _)).1
  refine ⟨wbFixK st.2
      ((st :: rest).map (fun s => { s.1 with timestamp := s.2 }))
      ((st :: rest).map (fun s => { s.1 with timestamp := s.2 })), ?_, ?_, ?_, ?_⟩
  · exact create_C1 st.2 _ hdl
  · rw [query_C1 st.2 _ q tq hq hqs hqp]
  · rw [query_C1 st.2 _ q tq hq hqs hqp]
    show (janus_whiteboard_packed_data_l
      (({ st.1 with timestamp := st.2 } : PbPackage) ::
        rest.map (fun s => ({ s.1 with timestamp := s.2 } : PbPackage)))).keyframe =
      none
    unfold janus_whiteboard_packed_data_l
    have hft : st.1.type = KLPackageType.DrawCommand :=
      (hall st (List.mem_cons_self _ _)).1
    simp [hft]
  · refine ⟨(janus_whiteboard_packed_data_l
      ((st :: rest).map (fun s => ({ s.1 with timestamp := s.2 } : PbPackage)))).command,
      ?_, ?_, ?_⟩
    · rw [query_C1 st.2 _ q tq hq hqs hqp]
    · rfl
    · show ((((st :: rest).map
        (fun s => ({ s.1 with timestamp := s.2 } : PbPackage))).map
          PbPackage.cmd).flatten) = ((st :: rest).map (fun s => s.1.cmd)).flatten
      rw [List.map_map]
      rfl

/-- Witness fixture: a canonical ScenePageData request for (0, 0). -/
def spdFix : PbPackage :=
  { type := .ScenePageData, scene := 0, page := 0, timestamp := 0, cmd := [],
    page_info := none, newscene := none }

theorem claim_C1_witness :
    ∃ wb2,
      janus_whiteboard_create
        (applySaves wbFix [(drawFix, 3), ({ drawFix with cmd := [9, 11] }, 4)]).sceneLog
        (applySaves wbFix [(drawFix, 3), ({ drawFix with cmd := [9, 11] }, 4)]).pageLog
        (applySaves wbFix [(drawFix, 3), ({ drawFix with cmd := [9, 11] }, 4)]).headerLog
        (applySaves wbFix [(drawFix, 3), ({ drawFix with cmd := [9, 11] }, 4)]).dataLog
        = some wb2 ∧
      (janus_whiteboard_save_package wb2 spdFix 5 true).1.ret = 1 ∧
      (janus_whiteboard_save_package wb2 spdFix 5 true).1.keyframe = none ∧
      ∃ out, (janus_whiteboard_save_package wb2 spdFix 5 true).1.command = some out ∧
        out.type = KLPackageType.DrawCommand ∧
        out.cmd = ([(drawFix, (3 : Int)), ({ drawFix with cmd := [9, 11] }, 4)].map
          (fun s => s.1.cmd)).flatten :=
  claim_C1_round_trip (drawFix, 3) [({ drawFix with cmd := [9, 11] }, 4)]
    (by decide) spdFix 5 (by decide) (by decide) (by decide)

/-! Claim C2: replay determinism — the on-demand scan and the live cache are
built by the same reduction (`add_pkt_to_packages_l`), so they agree. -/

/-- The data-log offset the scan starts from: the page's key-frame offset,
or 0 when the page has none. -/
def effOff (m : List (Int × JanusScene)) (s p : Int) : Nat :=
  match pageKFm m s p with
  | some kf => kf.offset
  | none => 0

theorem have_keyframe_congr (a b : Whiteboard) (h : b.scenes = a.scenes)
    (s p : Int) :
    janus_whiteboard_have_keyframe_l b s p =
      janus_whiteboard_have_keyframe_l a s p := by
  unfold janus_whiteboard_have_keyframe_l
  rw [h]

theorem foldl_scan_no_match (s p : Int) (l : List PbPackage)
    (h : ∀ q ∈ l, ¬(q.scene = s ∧ q.page = p)) :
    ∀ acc, l.foldl (scanStep s p) acc = acc := by
  induction l with
  | nil =>
    intro acc
    rfl
  | cons q l' ih =>
    intro acc
    show l'.foldl (scanStep s p) (scanStep s p acc q) = acc
    have hq : scanStep s p acc q = acc := by
      unfold scanStep
      rw [if_neg (h q (List.mem_cons_self _ _))]
    rw [hq, ih (fun r hr => h r (List.mem_cons_of_mem _ hr))]

theorem scene_page_data_eq (a : Whiteboard) (s p : Int)
    (hv : validSP a s p = true) :
    ∃ wbX, janus_whiteboard_scene_page_data_l a s p [] =
      some ((a.dataLog.drop (effOff a.scenes s p)).foldl (scanStep s p) [], wbX) := by
  obtain ⟨hs0, hslt, sc, hsc, hp0, hplt⟩ := (validScenes_iff a.scenes s p).mp hv
  unfold janus_whiteboard_scene_page_data_l
  cases hslot : sc.pages.getD p.toNat none with
  | some pg =>
    rw [get_page_slot_some a s p sc pg hsc hp0 hplt hslot]
    refine ⟨a, ?_⟩
    have hoff : effOff a.scenes s p = (match pg.key_frame with
        | some kf => kf.offset
        | none => 0) := by
      unfold effOff pageKFm
      simp only [hsc, hslot]
    rw [hoff]
  | none =>
    rw [get_page_slot_none a s p sc hsc hp0 hplt hslot]
    refine ⟨{ a with scenes := insertScene a.scenes s (matScene sc s p) }, ?_⟩
    have hoff : effOff a.scenes s p = 0 := by
      unfold effOff pageKFm
      simp only [hsc, hslot]
    rw [hoff]
    rfl

theorem scanStep_match (s p : Int) (acc : List PbPackage) (q : PbPackage)
    (hqs : q.scene = s) (hqp : q.page = p) :
    scanStep s p acc q = janus_whiteboard_add_pkt_to_packages_l acc q := by
  unfold scanStep
  rw [if_pos ⟨hqs, hqp⟩]

/-- Lockstep invariant for replay determinism: run `a` never has (s, p)
current, run `b` always does (with an initially empty cache); the shared
components agree, and `b`'s live cache equals the scan of `a`'s data log
from the page's key-frame offset. -/
def C2Inv (s p : Int) (a b : Whiteboard) : Prop :=
  b.scenes = a.scenes ∧ b.dataLog = a.dataLog ∧ b.headerLog = a.headerLog ∧
  b.sceneLog = a.sceneLog ∧ b.pageLog = a.pageLog ∧
  ¬(a.cur_page.scene = s ∧ a.cur_page.page = p) ∧
  b.cur_page.scene = s ∧ b.cur_page.page = p ∧
  validSP a s p = true ∧
  effOff a.scenes s p ≤ a.dataLog.length ∧
  b.packages = (a.dataLog.drop (effOff a.scenes s p)).foldl (scanStep s p) [] ∧
  (pageKFm a.scenes s p = none → ∀ q ∈ a.dataLog, ¬(q.scene = s ∧ q.page = p))

theorem C2Inv_saveDC (s p : Int) (a b : Whiteboard) (q : PbPackage)
    (hs : q.scene = s) (hp : q.page = p) (hinv : C2Inv s p a b) :
    C2Inv s p (saveDC a q) (saveDC b q) := by
  obtain ⟨h1, h2, h3, h4, h5, h6, h7, h8, h9, h10, h11, h12⟩ := hinv
  obtain ⟨hs0, hslt, sc, hsc, hp0, hplt⟩ := (validScenes_iff a.scenes s p).mp h9
  have fa := saveDC_fields a q
  have fb := saveDC_fields b q
  have hcong : janus_whiteboard_have_keyframe_l b q.scene q.page =
      janus_whiteboard_have_keyframe_l a q.scene q.page :=
    have_keyframe_congr a b h1 _ _
  have hmk : mkKF b q = mkKF a q := by
    unfold mkKF
    rw [h2]
  have hbp : (saveDC b q).packages =
      janus_whiteboard_add_pkt_to_packages_l b.packages q := by
    have hc : q.scene = b.cur_page.scene ∧ q.page = b.cur_page.page :=
      ⟨by rw [hs, h7], by rw [hp, h8]⟩
    rw [fb.2.2.2.2.2.2, if_pos hc]
  have hadl : (saveDC a q).dataLog = a.dataLog ++ [q] := fa.2.2.2.1
  have hcore : effOff (saveDC a q).scenes s p ≤ (saveDC a q).dataLog.length ∧
      (saveDC b q).packages =
        ((saveDC a q).dataLog.drop (effOff (saveDC a q).scenes s p)).foldl
          (scanStep s p) [] ∧
      (pageKFm (saveDC a q).scenes s p = none →
        ∀ r ∈ (saveDC a q).dataLog, ¬(r.scene = s ∧ r.page = p)) := by
    by_cases hIa : q.type = KLPackageType.CleanDraw ∨
        (0 ≤ q.page ∧
          janus_whiteboard_have_keyframe_l a q.scene q.page = false)
    · -- a key frame is installed at the data log's current EOF offset
      have hscn : (saveDC a q).scenes =
          installKFScenes a.scenes q.scene q.page (mkKF a q) := by
        rw [fa.2.2.2.2.1, if_pos hIa]
      have hpkf : pageKFm (saveDC a q).scenes s p = some (mkKF a q) := by
        rw [hscn, hs, hp]
        exact pageKFm_install_self a.scenes s p _ sc hsc (by omega)
      have hoff : effOff (saveDC a q).scenes s p = a.dataLog.length := by
        unfold effOff
        rw [hpkf]
        rfl
      refine ⟨?_, ?_, ?_⟩
      · rw [hoff, hadl]
        simp
      · rw [hbp, hoff, hadl, List.drop_left]
        have hrhs : ([q] : List PbPackage).foldl (scanStep s p) [] =
            janus_whiteboard_add_pkt_to_packages_l [] q := by
          show scanStep s p [] q = _
          exact scanStep_match s p [] q hs hp
        rw [hrhs]
        by_cases hclean : q.type = KLPackageType.CleanDraw
        · rw [add_pkt_cleandraw _ _ hclean, add_pkt_cleandraw _ _ hclean]
        · have hkfnone : pageKFm a.scenes s p = none := by
            rcases hIa with hcl | hr
            · exact absurd hcl hclean
            · have hff := hr.2
              rw [hs, hp] at hff
              rw [have_keyframe_eq a s p hp0, pageKF_eq_pageKFm] at hff
              cases hkk : pageKFm a.scenes s p with
              | none => rfl
              | some kf =>
                rw [hkk] at hff
                exact Bool.noConfusion hff
          have hbpk : b.packages = [] := by
            rw [h11]
            exact foldl_scan_no_match s p _
              (fun r hr => h12 hkfnone r (List.mem_of_mem_drop hr)) []
          rw [hbpk]
      · intro hnone
        rw [hpkf] at hnone
        exact Option.noConfusion hnone
    · -- no install: the page already has its key frame
      have hscn : (saveDC a q).scenes = a.scenes := by
        rw [fa.2.2.2.2.1, if_neg hIa]
      have hhv : janus_whiteboard_have_keyframe_l a q.scene q.page = true := by
        cases hb2 : janus_whiteboard_have_keyframe_l a q.scene q.page with
        | true => rfl
        | false =>
          exact absurd (Or.inr ⟨by rw [hp]; exact hp0, hb2⟩) hIa
      have hsome : ∃ kf, pageKFm a.scenes s p = some kf := by
        rw [hs, hp] at hhv
        rw [have_keyframe_eq a s p hp0, pageKF_eq_pageKFm] at hhv
        exact Option.isSome_iff_exists.mp hhv
      obtain ⟨kf, hkf⟩ := hsome
      have hoff : effOff (saveDC a q).scenes s p = kf.offset := by
        unfold effOff
        rw [hscn, hkf]
      have hoffold : effOff a.scenes s p = kf.offset := by
        unfold effOff
        rw [hkf]
      have hb10 : kf.offset ≤ a.dataLog.length := by
        rw [hoffold] at h10
        exact h10
      refine ⟨?_, ?_, ?_⟩
      · rw [hoff, hadl]
        simp
        omega
      · rw [hbp, hoff, hadl, List.drop_append_of_le_length hb10,
          List.foldl_append, h11, hoffold]
        exact (scanStep_match s p _ q hs hp).symm
      · intro hnone
        rw [hscn, hkf] at hnone
        exact Option.noConfusion hnone
  refine ⟨?_, ?_, ?_, ?_, ?_, ?_, ?_, ?_, ?_, hcore.1, hcore.2.1, hcore.2.2⟩
  · rw [fb.2.2.2.2.1, fa.2.2.2.2.1, h1, hcong, hmk]
  · rw [fb.2.2.2.1, fa.2.2.2.1, h2]
  · rw [fb.2.2.2.2.2.1, fa.2.2.2.2.2.1, h3, hcong, hmk]
  · rw [fb.2.1, fa.2.1, h4]
  · rw [fb.2.2.1, fa.2.2.1, h5]
  · rw [fa.1]
    exact h6
  · rw [fb.1]
    exact h7
  · rw [fb.1]
    exact h8
  · show validScenes (saveDC a q).scenes s p = true
    rw [validScenes_saveDC]
    exact h9

theorem C2Inv_step (s p : Int) (a b : Whiteboard) (pkg : PbPackage) (t : Int)
    (hty : pkg.type = KLPackageType.DrawCommand ∨
      pkg.type = KLPackageType.CleanDraw ∨
      (pkg.type = KLPackageType.PageChange ∧ pkg.page_info.isSome))
    (hs : pkg.scene = s) (hp : pkg.page = p) (hinv : C2Inv s p a b) :
    C2Inv s p (janus_whiteboard_save_package a pkg t true).2
      (janus_whiteboard_save_package b pkg t true).2 := by
  obtain ⟨h1, h2, h3, h4, h5, h6, h7, h8, h9, h10, h11, h12⟩ := hinv
  have hinv' : C2Inv s p a b :=
    ⟨h1, h2, h3, h4, h5, h6, h7, h8, h9, h10, h11, h12⟩
  obtain ⟨hs0, hslt, sc, hsc, hp0, hplt⟩ := (validScenes_iff a.scenes s p).mp h9
  have hva : validSP a pkg.scene pkg.page = true := by
    rw [hs, hp]
    exact h9
  have hvb : validSP b pkg.scene pkg.page = true := by
    show validScenes b.scenes pkg.scene pkg.page = true
    rw [h1, hs, hp]
    exact h9
  rcases hty with hD | hC | ⟨hPC, hpi⟩
  · rw [save_dc_eq a pkg t hva (Or.inl hD), save_dc_eq b pkg t hvb (Or.inl hD)]
    exact C2Inv_saveDC s p a b { pkg with timestamp := t } hs hp hinv'
  · rw [save_dc_eq a pkg t hva (Or.inr hC), save_dc_eq b pkg t hvb (Or.inr hC)]
    exact C2Inv_saveDC s p a b { pkg with timestamp := t } hs hp hinv'
  · -- PageChange with page info: page-log append, set_page, possible current
    -- page refresh, then the same shared trailer
    obtain ⟨pi0, hpi0⟩ := Option.isSome_iff_exists.mp hpi
    rw [save_pagechange_eq a pkg t pi0 hPC hpi0 hva,
      save_pagechange_eq b pkg t pi0 hPC hpi0 hvb]
    show C2Inv s p (savePC a { pkg with timestamp := t } pi0)
      (savePC b { pkg with timestamp := t } pi0)
    have hsc_a : lookupScene a.scenes pkg.scene = some sc := by
      rw [hs]
      exact hsc
    have hsc_b : lookupScene b.scenes pkg.scene = some sc := by
      rw [h1, hs]
      exact hsc
    have hp0' : (0 : Int) ≤ pkg.page := by
      rw [hp]
      exact hp0
    have hplt' : pkg.page < (sc.pages.length : Int) := by
      rw [hp]
      exact hplt
    have hspa := set_page_eq
      { a with pageLog := a.pageLog ++
          [PbPage.mk pkg.scene pkg.page pi0.timestamp pi0.angle pi0.scale pi0.move_x
            pi0.move_y] }
      (PbPage.mk pkg.scene pkg.page pi0.timestamp pi0.angle pi0.scale pi0.move_x
        pi0.move_y) sc hsc_a hp0' hplt'
    have hspb := set_page_eq
      { b with pageLog := b.pageLog ++
          [PbPage.mk pkg.scene pkg.page pi0.timestamp pi0.angle pi0.scale pi0.move_x
            pi0.move_y] }
      (PbPage.mk pkg.scene pkg.page pi0.timestamp pi0.angle pi0.scale pi0.move_x
        pi0.move_y) sc hsc_b hp0' hplt'
    simp only [savePC, hspa, hspb]
    have hcondA : ¬(a.cur_page.scene = (setPageStored sc (PbPage.mk pkg.scene pkg.page
        pi0.timestamp pi0.angle pi0.scale pi0.move_x pi0.move_y)).scene ∧
        a.cur_page.page = (setPageStored sc (PbPage.mk pkg.scene pkg.page
        pi0.timestamp pi0.angle pi0.scale pi0.move_x pi0.move_y)).page) := by
      intro hc
      apply h6
      refine ⟨?_, ?_⟩
      · have hx : a.cur_page.scene = pkg.scene := hc.1
        rw [hs] at hx
        exact hx
      · have hx : a.cur_page.page = pkg.page := hc.2
        rw [hp] at hx
        exact hx
    have hcondB : b.cur_page.scene = (setPageStored sc (PbPage.mk pkg.scene pkg.page
        pi0.timestamp pi0.angle pi0.scale pi0.move_x pi0.move_y)).scene ∧
        b.cur_page.page = (setPageStored sc (PbPage.mk pkg.scene pkg.page
        pi0.timestamp pi0.angle pi0.scale pi0.move_x pi0.move_y)).page := by
      refine ⟨?_, ?_⟩
      · show b.cur_page.scene = pkg.scene
        rw [h7]
        exact hs.symm
      · show b.cur_page.page = pkg.page
        rw [h8]
        exact hp.symm
    simp only [if_neg hcondA, if_pos hcondB]
    have hkfmW : pageKFm (insertScene a.scenes pkg.scene
        (setPageScene sc (PbPage.mk pkg.scene pkg.page pi0.timestamp pi0.angle
          pi0.scale pi0.move_x pi0.move_y))) s p = pageKFm a.scenes s p :=
      pageKFm_setPageScene a
        (PbPage.mk pkg.scene pkg.page pi0.timestamp pi0.angle pi0.scale pi0.move_x
          pi0.move_y) sc hsc_a
        (show pkg.page.toNat < sc.pages.length by omega) s p
    have hoffW : effOff (insertScene a.scenes pkg.scene
        (setPageScene sc (PbPage.mk pkg.scene pkg.page pi0.timestamp pi0.angle
          pi0.scale pi0.move_x pi0.move_y))) s p = effOff a.scenes s p := by
      unfold effOff
      rw [hkfmW]
    refine C2Inv_saveDC s p _ _ _ hs hp
      ⟨?_, ?_, ?_, ?_, ?_, ?_, ?_, ?_, ?_, ?_, ?_, ?_⟩
    · show insertScene b.scenes pkg.scene
        (setPageScene sc (PbPage.mk pkg.scene pkg.page pi0.timestamp pi0.angle
          pi0.scale pi0.move_x pi0.move_y)) =
        insertScene a.scenes pkg.scene
        (setPageScene sc (PbPage.mk pkg.scene pkg.page pi0.timestamp pi0.angle
          pi0.scale pi0.move_x pi0.move_y))
      rw [h1]
    · exact h2
    · exact h3
    · exact h4
    · show b.pageLog ++ [PbPage.mk pkg.scene pkg.page pi0.timestamp pi0.angle
        pi0.scale pi0.move_x pi0.move_y] = a.pageLog ++ [PbPage.mk pkg.scene pkg.page
        pi0.timestamp pi0.angle pi0.scale pi0.move_x pi0.move_y]
      rw [h5]
    · exact h6
    · show (setPageStored sc (PbPage.mk pkg.scene pkg.page pi0.timestamp pi0.angle
        pi0.scale pi0.move_x pi0.move_y)).scene = s
      exact hs
    · show (setPageStored sc (PbPage.mk pkg.scene pkg.page pi0.timestamp pi0.angle
        pi0.scale pi0.move_x pi0.move_y)).page = p
      exact hp
    · show validScenes (insertScene a.scenes pkg.scene
        (setPageScene sc (PbPage.mk pkg.scene pkg.page pi0.timestamp pi0.angle
          pi0.scale pi0.move_x pi0.move_y))) s p = true
      exact (validScenes_setPageScene a
        (PbPage.mk pkg.scene pkg.page pi0.timestamp pi0.angle pi0.scale pi0.move_x
          pi0.move_y) sc hsc_a s p).trans h9
    · show effOff (insertScene a.scenes pkg.scene
        (setPageScene sc (PbPage.mk pkg.scene pkg.page pi0.timestamp pi0.angle
          pi0.scale pi0.move_x pi0.move_y))) s p ≤ a.dataLog.length
      rw [hoffW]
      exact h10
    · show b.packages = (a.dataLog.drop (effOff (insertScene a.scenes pkg.scene
        (setPageScene sc (PbPage.mk pkg.scene pkg.page pi0.timestamp pi0.angle
          pi0.scale pi0.move_x pi0.move_y))) s p)).foldl (scanStep s p) []
      rw [hoffW]
      exact h11
    · show pageKFm (insertScene a.scenes pkg.scene
        (setPageScene sc (PbPage.mk pkg.scene pkg.page pi0.timestamp pi0.angle
          pi0.scale pi0.move_x pi0.move_y))) s p = none →
        ∀ r ∈ a.dataLog, ¬(r.scene = s ∧ r.page = p)
      intro hn
      rw [hkfmW] at hn
      exact h12 hn

theorem C2Inv_fold (s p : Int) (steps : List (PbPackage × Int)) :
    (∀ x ∈ steps, (x.1.type = KLPackageType.DrawCommand ∨
      x.1.type = KLPackageType.CleanDraw ∨
      (x.1.type = KLPackageType.PageChange ∧ x.1.page_info.isSome)) ∧
      x.1.scene = s ∧ x.1.page = p) →
    ∀ a b : Whiteboard, C2Inv s p a b →
      C2Inv s p (applySaves a steps) (applySaves b steps) := by
  induction steps with
  | nil =>
    intro _ a b h
    exact h
  | cons x tail ih =>
    intro hsteps a b h
    have hx := hsteps x (List.mem_cons_self _ _)
    show C2Inv s p
      (applySaves ((janus_whiteboard_save_package a x.1 x.2 true).2) tail)
      (applySaves ((janus_whiteboard_save_package b x.1 x.2 true).2) tail)
    exact ih (fun y hy => hsteps y (List.mem_cons_of_mem _ hy)) _ _
      (C2Inv_step s p a b x.1 x.2 hx.1 hx.2.1 hx.2.2 h)

/-- C2: replay determinism.  For any sequence of packages `save_package`
accepts as mutations of a valid, fresh (s, p) — DrawCommand, CleanDraw, and
PageChange carrying page info (SwitchScenePage is excluded by the claim's
own premise, as it makes the page current; the remaining accepted types do
not mutate a page) — run on a session where (s, p) is never the current
page, the on-demand scan `scene_page_data_l` returns exactly the cache that
the run with (s, p) current throughout would have built live, so packing
either view gives the same result: both are folds of the same reduction
`add_pkt_to_packages_l` over the same records. -/
theorem claim_C2_replay (s p : Int) (steps : List (PbPackage × Int))
    (hsteps : ∀ x ∈ steps, (x.1.type = KLPackageType.DrawCommand ∨
      x.1.type = KLPackageType.CleanDraw ∨
      (x.1.type = KLPackageType.PageChange ∧ x.1.page_info.isSome)) ∧
      x.1.scene = s ∧ x.1.page = p)
    (a0 : Whiteboard) (cp : JanusPage)
    (hv : validSP a0 s p = true)
    (hacur : ¬(a0.cur_page.scene = s ∧ a0.cur_page.page = p))
    (hcp1 : cp.scene = s) (hcp2 : cp.page = p)
    (hkf0 : pageKF a0 s p = none)
    (hfresh : ∀ q ∈ a0.dataLog, ¬(q.scene = s ∧ q.page = p)) :
    ∃ acc wbX,
      janus_whiteboard_scene_page_data_l (applySaves a0 steps) s p [] =
        some (acc, wbX) ∧
      acc = (applySaves { a0 with cur_page := cp, packages := [] } steps).packages ∧
      janus_whiteboard_packed_data_l acc =
        janus_whiteboard_packed_data_l
          (applySaves { a0 with cur_page := cp, packages := [] } steps).packages := by
  have hoff0 : effOff a0.scenes s p = 0 := by
    unfold effOff
    rw [pageKF_eq_pageKFm] at hkf0
    rw [hkf0]
  have hinv0 : C2Inv s p a0 { a0 with cur_page := cp, packages := [] } := by
    refine ⟨rfl, rfl, rfl, rfl, rfl, hacur, hcp1, hcp2, hv, ?_, ?_, ?_⟩
    · rw [hoff0]
      exact Nat.zero_le _
    · rw [hoff0]
      show ([] : List PbPackage) = a0.dataLog.foldl (scanStep s p) []
      exact (foldl_scan_no_match s p a0.dataLog hfresh []).symm
    · intro _
      exact hfresh
  have hfin := C2Inv_fold s p steps hsteps a0 _ hinv0
  obtain ⟨f1, f2, f3, f4, f5, f6, f7, f8, f9, f10, f11, f12⟩ := hfin
  obtain ⟨wbX, hscan⟩ := scene_page_data_eq (applySaves a0 steps) s p f9
  refine ⟨_, wbX, hscan, f11.symm, ?_⟩
  rw [f11]

/-- Witness fixture: a PageChange package for (0, 1) carrying page info. -/
def pcFix : PbPackage :=
  { type := .PageChange, scene := 0, page := 1, timestamp := 0, cmd := [],
    page_info := some ⟨0, 1, 9, 0, 1, 0, 0⟩, newscene := none }

theorem claim_C2_witness :
    ∃ acc wbX,
      janus_whiteboard_scene_page_data_l
        (applySaves wbFix [({ drawFix with page := 1 }, 3), (pcFix, 4),
          ({ cleanFix with page := 1 }, 5),
          ({ drawFix with page := 1, cmd := [8] }, 6)]) 0 1 [] = some (acc, wbX) ∧
      acc = (applySaves { wbFix with cur_page := defaultPage 0 1, packages := [] }
        [({ drawFix with page := 1 }, 3), (pcFix, 4),
         ({ cleanFix with page := 1 }, 5),
         ({ drawFix with page := 1, cmd := [8] }, 6)]).packages ∧
      janus_whiteboard_packed_data_l acc =
        janus_whiteboard_packed_data_l
          (applySaves { wbFix with cur_page := defaultPage 0 1, packages := [] }
            [({ drawFix with page := 1 }, 3), (pcFix, 4),
             ({ cleanFix with page := 1 }, 5),
             ({ drawFix with page := 1, cmd := [8] }, 6)]).packages :=
  claim_C2_replay 0 1
    [({ drawFix with page := 1 }, 3), (pcFix, 4),
     ({ cleanFix with page := 1 }, 5), ({ drawFix with page := 1, cmd := [8] }, 6)]
    (by decide) wbFix (defaultPage 0 1) (by decide) (by decide) (by decide)
    (by decide) (by decide) (by decide)
